import Mathlib

/-!
Verification development for the Telegram real-estate listing parser
(`PropertyParser.parse_property_info` and companions) and the change-summary
builder (`TelegramNotionBot._build_update_summary`).

The Python source is shallowly embedded: strings are lists of characters,
each regular expression of the source is hand-compiled into an executable
matching function with the same search/backtracking semantics on the
character level, Python `int` is `ℤ`, Python `float` is modelled as `ℚ`
(exact decimal arithmetic in place of binary floating point), and the
parser's result dictionary is a structure with one optional field per
dictionary key the source can ever set.  Whitespace (`\s`) is modelled as
the ASCII whitespace characters.
-/

namespace TNBot

/-- Character list, the working representation of Python strings. -/
abbrev Str := List Char

/-- ASCII decimal digit test, the model of the regex class `\d`. -/
def isDigitC (c : Char) : Bool := '0' ≤ c && c ≤ '9'

/-- Whitespace test, the model of the regex class `\s` and of `str.strip`. -/
def isSpaceC (c : Char) : Bool :=
  c == ' ' || c == '\t' || c == '\n' || c == '\r' || c == '\x0b' || c == '\x0c'

/-- Hangul syllable test, the model of the regex class `[가-힣]`. -/
def isHangulC (c : Char) : Bool := 0xAC00 ≤ c.toNat && c.toNat ≤ 0xD7A3

/-- Drop leading whitespace (the effect of a greedy `\s*`). -/
def dropSpacesL (s : Str) : Str := s.dropWhile (fun c => isSpaceC c)

/-- Trim whitespace from both ends, the model of Python `str.strip()`. -/
def stripL (s : Str) : Str :=
  ((s.dropWhile fun c => isSpaceC c).reverse.dropWhile fun c => isSpaceC c).reverse

/-- Trim the given characters from the right end, the model of `str.rstrip(cs)`. -/
def rstripSet (cs : Str) (s : Str) : Str :=
  (s.reverse.dropWhile fun c => cs.contains c).reverse

/-- Build a `String` back from a character list. -/
def mkS (s : Str) : String := String.mk s

/-- Split on a single character, the model of Python `str.split(ch)`
(empty pieces are kept). -/
def splitOnChar (ch : Char) : Str → List Str
  | [] => [[]]
  | c :: r =>
    if c = ch then [] :: splitOnChar ch r
    else
      match splitOnChar ch r with
      | h :: t => (c :: h) :: t
      | [] => [[c]]

/-- Substring containment test, the model of Python `pat in s`. -/
def containsSub (pat : Str) : Str → Bool
  | [] => pat.isPrefixOf ([] : Str)
  | s@(_ :: rest) => pat.isPrefixOf s || containsSub pat rest

/-- Text after the first occurrence of `pat`, the model of
`s.split(pat, 1)[1]` (callers guard on containment; absent gives `[]`). -/
def afterFirst (pat : Str) : Str → Str
  | [] => []
  | s@(_ :: rest) => if pat.isPrefixOf s then s.drop pat.length else afterFirst pat rest

/-- Numeric value of a digit string, the model of `int` on a `\d+` capture. -/
def digitsVal (s : Str) : ℕ := s.foldl (fun a c => a * 10 + (c.toNat - 48)) 0

/-- Value of a decimal capture (`\d+\.?\d*`), the model of Python `float`
on such a capture (integer part plus fraction, built with `mkRat` so that
it evaluates by kernel reduction).  Total: non-digit input contributes
nothing. -/
def parseDec (s : Str) : ℚ :=
  let ds := s.takeWhile fun c => isDigitC c
  let r := s.drop ds.length
  let fs :=
    match r with
    | '.' :: r2 => r2.takeWhile fun c => isDigitC c
    | _ => []
  mkRat ((digitsVal ds : ℤ) * (10 : ℤ) ^ fs.length + (digitsVal fs : ℤ)) ((10 : ℕ) ^ fs.length)

/-- Rational addition in explicit numerator/denominator form (the value of
`a + b`, in a shape the kernel evaluates). -/
def qAdd (a b : ℚ) : ℚ := mkRat (a.num * (b.den : ℤ) + b.num * (a.den : ℤ)) (a.den * b.den)

/-! ## The Korean-numeral converter `PropertyParser._parse_korean_number` -/

/-- Search for `(\d+)\s*U` (leftmost match, greedy digits) and return the
digit group.  This models `re.search(r'(\d+)\s*억', text)` and friends. -/
def unitDigits (u : Char) : Str → Option Str
  | [] => none
  | c :: rest =>
    if isDigitC c then
      let ds := (c :: rest).takeWhile fun x => isDigitC x
      let r := (c :: rest).drop ds.length
      if (dropSpacesL r).head? = some u then some ds
      else unitDigits u rest
    else unitDigits u rest

/-- One scanning pass of `re.sub(r'\d+\s*[억천백]', '', text)`: on a match the
whole matched span is dropped, otherwise one character is kept. -/
def removeUnitNums : ℕ → Str → Str
  | 0, s => s
  | _ + 1, [] => []
  | fuel + 1, c :: rest =>
    if isDigitC c then
      let ds := (c :: rest).takeWhile fun x => isDigitC x
      let r := (c :: rest).drop ds.length
      let r2 := dropSpacesL r
      match r2 with
      | u :: r3 =>
        if u = '억' ∨ u = '천' ∨ u = '백' then removeUnitNums fuel r3
        else c :: removeUnitNums fuel rest
      | [] => c :: removeUnitNums fuel rest
    else c :: removeUnitNums fuel rest

/-- Model of `re.sub(r'[만원\s]', '', s)`. -/
def removeMoneyChars (s : Str) : Str :=
  s.filter fun c => ¬ (c = '만' ∨ c = '원' ∨ isSpaceC c = true)

/-- First `\d+` run of a string (leftmost, greedy), the model of
`re.search(r'(\d+)', s)`. -/
def firstDigitRun : Str → Option Str
  | [] => none
  | c :: rest =>
    if isDigitC c then some ((c :: rest).takeWhile fun x => isDigitC x)
    else firstDigitRun rest

/-- Embedding of `PropertyParser._parse_korean_number`. -/
def parseKoreanNumber (s0 : Str) : Option ℤ :=
  let text := stripL s0
  if text = [] then none
  else
    let mEok := unitDigits '억' text
    let mCheon := unitDigits '천' text
    let mBaek := unitDigits '백' text
    if mEok.isSome || mCheon.isSome || mBaek.isSome then
      let total : ℤ :=
        (match mEok with | some d => (digitsVal d : ℤ) * 10000 | none => 0)
        + (match mCheon with | some d => (digitsVal d : ℤ) * 1000 | none => 0)
        + (match mBaek with | some d => (digitsVal d : ℤ) * 100 | none => 0)
      let remaining := stripL (removeMoneyChars (removeUnitNums text.length text))
      let extra : ℤ :=
        match firstDigitRun remaining with
        | some d => (digitsVal d : ℤ)
        | none => 0
      some (total + extra)
    else
      let clean := removeMoneyChars text
      match firstDigitRun clean with
      | some d => some ((digitsVal d : ℤ))
      | none => none

/-- The unit table of the spec's converter description: a hundred-million
match contributes `digits × 10000`, a thousand `digits × 1000`, a hundred
`digits × 100` (the output is in units of 10,000 currency). -/
def koreanUnitTable : List (Char × ℤ) := [('억', 10000), ('천', 1000), ('백', 100)]

/-- Leftover bare digits after removing unit tokens and currency glyphs. -/
def leftoverDigits (text : Str) : ℤ :=
  match firstDigitRun (stripL (removeMoneyChars (removeUnitNums text.length text))) with
  | some d => (digitsVal d : ℤ)
  | none => 0

/-- First bare integer after stripping currency/unit glyphs, or absent. -/
def firstBareInt (text : Str) : Option ℤ :=
  (firstDigitRun (removeMoneyChars text)).map fun d => (digitsVal d : ℤ)

/-- The converter as the spec phrases it: each unit contribution is
independently optional and additive; leftover digits are added only when at
least one unit matched; with no unit match the first bare integer is
returned, else absent. -/
def koreanAmountSpec (s0 : Str) : Option ℤ :=
  let text := stripL s0
  let contribs := koreanUnitTable.map fun p =>
    (unitDigits p.1 text).map fun d => (digitsVal d : ℤ) * p.2
  if contribs.any fun o => o.isSome then
    some ((contribs.map fun o => o.getD 0).sum + leftoverDigits text)
  else firstBareInt text


/-! ## Python values and the change-summary builder
`TelegramNotionBot._build_update_summary` -/

/-- Model of the Python values that flow through the summary builder:
ints, floats (as exact rationals), strings, lists, booleans and `None`. -/
inductive PyVal where
  | int : ℤ → PyVal
  | float : ℚ → PyVal
  | str : String → PyVal
  | list : List PyVal → PyVal
  | bool : Bool → PyVal
  | none : PyVal

/-- Numeric view: Python `isinstance(v, (int, float))` together with the
numeric value (a `bool` is an `int` in Python, `True == 1`). -/
def numVal : PyVal → Option ℚ
  | PyVal.int n => some (n : ℚ)
  | PyVal.float q => some q
  | PyVal.bool b => some (if b then 1 else 0)
  | _ => none

/-- Decimal digits of a rational in `[0, 1)`, the fractional part of the
shortest decimal rendering; fuel-bounded for totality. -/
def fracDigits : ℕ → ℚ → String
  | 0, _ => ""
  | fuel + 1, q =>
    if q = 0 then ""
    else
      let t := mkRat (q.num * 10) q.den
      let d : ℤ := ⌊t⌋
      toString d ++ fracDigits fuel (mkRat (t.num - d * (t.den : ℤ)) t.den)

/-- Rendering of a non-negative float value: integer part, point, fraction
digits (`".0"` when the value is integral). -/
def floatReprNN (a : ℚ) : String :=
  let ip : ℤ := ⌊a⌋
  let ds := fracDigits 60 (mkRat (a.num - ip * (a.den : ℤ)) a.den)
  toString ip ++ "." ++ (if ds = "" then "0" else ds)

/-- Rendering of a float value, the model of Python `str` on a float whose
value is an exact decimal (`2000.0` renders as `"2000.0"`, `2000.5` as
`"2000.5"`). -/
def floatRepr (q : ℚ) : String :=
  if q < 0 then "-" ++ floatReprNN (mkRat (-q.num) q.den) else floatReprNN q

mutual

/-- Model of Python `str(v)` for the values the summary builder renders. -/
def pyStr : PyVal → String
  | PyVal.int n => toString n
  | PyVal.float q => floatRepr q
  | PyVal.str s => s
  | PyVal.bool b => if b then "True" else "False"
  | PyVal.none => "None"
  | PyVal.list l => "[" ++ String.intercalate ", " (pyReprList l) ++ "]"

/-- Element renderings inside a list `str`, with quotes around strings. -/
def pyReprList : List PyVal → List String
  | [] => []
  | PyVal.str s :: t => ("\x27" ++ s ++ "\x27") :: pyReprList t
  | v :: t => pyStr v :: pyReprList t

end

/-- Model of the local `_to_str` helper of `_build_update_summary`: lists
join their elements with `", "`, `None` renders empty, everything else via
`str`. -/
def toStrF : PyVal → String
  | PyVal.list l => String.intercalate ", " (l.map pyStr)
  | PyVal.none => ""
  | v => pyStr v

mutual

/-- Structural boolean equality on `PyVal`. -/
def pyBeq : PyVal → PyVal → Bool
  | PyVal.int a, PyVal.int b => a == b
  | PyVal.float a, PyVal.float b => a == b
  | PyVal.str a, PyVal.str b => a == b
  | PyVal.bool a, PyVal.bool b => a == b
  | PyVal.none, PyVal.none => true
  | PyVal.list a, PyVal.list b => pyBeqList a b
  | _, _ => false

/-- Elementwise boolean equality on `PyVal` lists. -/
def pyBeqList : List PyVal → List PyVal → Bool
  | [], [] => true
  | a :: as, b :: bs => pyBeq a b && pyBeqList as bs
  | _, _ => false

end

/-- Model of Python `==` between the values compared here (numbers compare
by value across `int`/`float`/`bool`; other values structurally; numeric
coercion inside nested lists is not needed by any caller and not modelled). -/
def pyEqB (a b : PyVal) : Bool :=
  match numVal a, numVal b with
  | some x, some y => x == y
  | _, _ => pyBeq a b

/-- The field dictionaries the summary builder compares. -/
abbrev PyDict := List (String × PyVal)

/-- Dictionary lookup, the model of `d.get(k)` (first binding wins). -/
def dlookup (d : PyDict) (k : String) : Option PyVal :=
  (d.find? fun p => p.1 == k).map fun p => p.2

/-- Display of the old value in the numeric branch: a float equal to its
integer truncation is displayed as that integer (`int(old_val)`), any other
value is displayed by `str`. -/
def dispNum (v : PyVal) : String :=
  match v with
  | PyVal.float q => if q.den = 1 then toString q.num else floatRepr q
  | v => pyStr v

/-- Per-field fragment of `_build_update_summary`'s main loop.  Mirrors the
numeric branch, the string-compare branch and the addition branch. -/
def fieldFragment (old new : PyDict) (k l : String) : Option String :=
  match dlookup new k with
  | Option.none => Option.none
  | some nv =>
    let ov := (dlookup old k).getD PyVal.none
    match numVal ov, numVal nv with
    | some x, some y =>
      if x ≠ y then some (l ++ dispNum ov ++ "→" ++ pyStr nv) else Option.none
    | _, _ =>
      match ov with
      | PyVal.none => some (l ++ ":" ++ toStrF nv)
      | _ =>
        if toStrF ov ≠ toStrF nv then some (l ++ toStrF ov ++ "→" ++ toStrF nv)
        else Option.none

/-- Deal-status fragment (`거래_상태` special case). -/
def dealFragment (old new : PyDict) : Option String :=
  match dlookup new "거래_상태" with
  | Option.none => Option.none
  | some nv =>
    let ov := (dlookup old "거래_상태").getD PyVal.none
    if pyEqB ov nv then Option.none
    else
      match dlookup new "거래완료_시점" with
      | some t => some ("거래완료(" ++ pyStr t ++ ")")
      | Option.none => some ("거래상태:" ++ pyStr nv)

/-- Special-notes fragment (`특이사항` special case): a changed notes text
contributes only the constant marker. -/
def notesFragment (old new : PyDict) : Option String :=
  match dlookup new "특이사항" with
  | Option.none => Option.none
  | some nv =>
    if pyStr ((dlookup old "특이사항").getD (PyVal.str "")) ≠ pyStr nv then
      some "특이사항수정"
    else Option.none

/-- The 19-entry (key, label) table iterated by `_build_update_summary`. -/
def summaryFields : List (String × String) :=
  [("주소", "주소"), ("층수", "층수"), ("보증금", "보증금"), ("월세", "월세"),
   ("부가세", "부가세"), ("관리비", "관리비"), ("권리금", "권리금"),
   ("건축물용도", "용도"), ("계약면적", "계약㎡"), ("전용면적", "전용㎡"),
   ("주차", "주차"), ("방향", "방향"), ("화장실 위치", "화장실위치"),
   ("화장실 수", "화장실"), ("위반건축물", "위반"), ("대표 연락처", "연락처"),
   ("매물_유형", "매물유형"), ("소재지_구", "소재지"), ("임대_구분", "임대구분")]

/-- Embedding of `TelegramNotionBot._build_update_summary`. -/
def buildUpdateSummary (old new : PyDict) : String :=
  let frags := (summaryFields.filterMap fun p => fieldFragment old new p.1 p.2)
    ++ (dealFragment old new).toList ++ (notesFragment old new).toList
  if frags = [] then "내용수정" else String.intercalate ", " frags


/-! ## The parse result record

One optional field per dictionary key `parse_property_info` can ever set.
Field names romanize the Korean dictionary keys of the source:
`juso` 주소, `maemulHyeong` 매물_유형, `sojaejiGu` 소재지_구,
`imdaeGubun` 임대_구분, `bojeunggeum` 보증금, `wolse` 월세,
`bugase` 부가세, `gwanribi` 관리비, `gwonrigeum` 권리금,
`gwonrigeumMemo` 권리금 메모, `building` 건축물용도 (list),
`perFloorUseStr` 층별용도, `contractArea` 계약면적, `exclArea` 전용면적,
`perFloorAreaDetail` 층별면적상세, `parking` 주차, `parkingMemo` 주차 메모,
`bathCountStr` 화장실 수, `bathLoc` 화장실 위치, `direction` 방향,
`violation` 위반건축물, `phone0` 대표 연락처, `memo0` 연락처 메모,
`phone1` 추가 연락처1, `memo1` 연락처 추가메모1, `phone2` 추가 연락처2,
`memo2` 연락처 추가메모2, `notes` 특이사항, `notesAppend` 특이사항_추가. -/
structure PData where
  juso : Option String := none
  maemulHyeong : Option String := none
  sojaejiGu : Option String := none
  imdaeGubun : Option String := none
  bojeunggeum : Option ℤ := none
  wolse : Option ℤ := none
  bugase : Option String := none
  gwanribi : Option String := none
  gwonrigeum : Option ℤ := none
  gwonrigeumMemo : Option String := none
  building : Option (List String) := none
  perFloorUseStr : Option String := none
  contractArea : Option ℚ := none
  exclArea : Option ℚ := none
  perFloorAreaDetail : Option String := none
  parking : Option String := none
  parkingMemo : Option String := none
  bathCountStr : Option String := none
  bathLoc : Option String := none
  direction : Option String := none
  violation : Option String := none
  phone0 : Option String := none
  memo0 : Option String := none
  phone1 : Option String := none
  memo1 : Option String := none
  phone2 : Option String := none
  memo2 : Option String := none
  notes : Option String := none
  notesAppend : Option Bool := none
deriving DecidableEq, Repr

/-- Truthiness of the result dictionary (`if ... and data:`): at least one
key has been set. -/
def pdataNonempty (d : PData) : Bool :=
  d.juso.isSome || d.maemulHyeong.isSome || d.sojaejiGu.isSome || d.imdaeGubun.isSome ||
  d.bojeunggeum.isSome || d.wolse.isSome || d.bugase.isSome || d.gwanribi.isSome ||
  d.gwonrigeum.isSome || d.gwonrigeumMemo.isSome || d.building.isSome ||
  d.perFloorUseStr.isSome || d.contractArea.isSome || d.exclArea.isSome ||
  d.perFloorAreaDetail.isSome || d.parking.isSome || d.parkingMemo.isSome ||
  d.bathCountStr.isSome || d.bathLoc.isSome || d.direction.isSome ||
  d.violation.isSome || d.phone0.isSome || d.memo0.isSome || d.phone1.isSome ||
  d.memo1.isSome || d.phone2.isSome || d.memo2.isSome || d.notes.isSome ||
  d.notesAppend.isSome

/-! ## Keyword-pattern machinery

The source's keyword regexes are sequences of literal runs, single-character
classes and greedy `\s*` gaps.  They are compiled to atom lists. -/

/-- One atom of a keyword pattern. -/
inductive RAtom where
  | lit : Str → RAtom
  | cls : Str → RAtom
  | ws : RAtom

/-- Match an atom sequence at the head of `s` (a greedy `\s*` never needs
to give characters back here because no pattern continues with whitespace). -/
def matchAtoms : List RAtom → Str → Option Str
  | [], s => some s
  | RAtom.lit l :: ps, s =>
    if l.isPrefixOf s then matchAtoms ps (s.drop l.length) else none
  | RAtom.cls _ :: _, [] => none
  | RAtom.cls cs :: ps, c :: s => if cs.contains c then matchAtoms ps s else none
  | RAtom.ws :: ps, s => matchAtoms ps (dropSpacesL s)

/-- Does any of the alternative atom sequences match anywhere in `s`
(the model of `re.search(a|b|...)` used as a boolean)? -/
def searchAtomsAny (pats : List (List RAtom)) : Str → Bool
  | [] => pats.any fun p => (matchAtoms p ([] : Str)).isSome
  | s@(_ :: rest) =>
    (pats.any fun p => (matchAtoms p s).isSome) || searchAtomsAny pats rest

/-- Remove every non-overlapping leftmost match of the alternatives, the
model of `re.sub(a|b|..., '', s)`; alternatives are tried in order. -/
def removeAtomsAll (pats : List (List RAtom)) : ℕ → Str → Str
  | 0, s => s
  | _ + 1, [] => []
  | fuel + 1, s@(c :: rest) =>
    match pats.findSome? fun p => matchAtoms p s with
    | some r => removeAtomsAll pats fuel r
    | none => c :: removeAtomsAll pats fuel rest

/-- Literal atom from a string. -/
def al (s : String) : RAtom := RAtom.lit s.data

/-- Class atom from a string of characters. -/
def ac (s : String) : RAtom := RAtom.cls s.data

/-- Whitespace-gap atom. -/
def aw : RAtom := RAtom.ws

/-- Leftmost-occurring literal among alternatives (alternatives tried in
order at each position), the model of `re.search(w1|w2|...)` with a
capture of the matched word. -/
def findFirstLit (alts : List String) : Str → Option String
  | [] => none
  | s@(_ :: rest) =>
    match alts.findSome? fun a => if a.data.isPrefixOf s then some a else none with
    | some a => some a
    | none => findFirstLit alts rest

/-! ## Section 1: deposit / rent / VAT -/

/-- Price-expression character class `[\d억천백만원\s]`. -/
def isPriceChar (c : Char) : Bool :=
  isDigitC c || c = '억' || c = '천' || c = '백' || c = '만' || c = '원' || isSpaceC c

/-- Model of `re.search(r'([\d억천백만원\s]+?)/([\d억천백만원\s]+)', s)`.
The lazy/greedy semantics collapse to: the first `/` with a price character
immediately before and after it; group 1 is the maximal price-character run
ending just before that `/`, group 2 the maximal run after it. -/
def priceSplitGo (acc : Str) : Str → Option (Str × Str)
  | [] => none
  | '/' :: rest =>
    if acc ≠ [] ∧ (rest.head?.map fun c => isPriceChar c).getD false then
      some (acc.reverse, rest.takeWhile fun c => isPriceChar c)
    else priceSplitGo [] rest
  | c :: rest =>
    if isPriceChar c then priceSplitGo (c :: acc) rest else priceSplitGo [] rest

/-- Price split entry point. -/
def priceSplit (s : Str) : Option (Str × Str) := priceSplitGo [] s

/-- VAT "separate" family: `부\s*별|부가세\s*별도|부가세\s*[oO]`. -/
def vatSepMatch (line : Str) : Bool :=
  searchAtomsAny [[al "부", aw, al "별"], [al "부가세", aw, al "별도"],
    [al "부가세", aw, ac "oO"]] line

/-- VAT "none" family: `부\s*없|부\s*[xX]|부가세\s*[xX]|부가세\s*없`. -/
def vatNoneMatch (line : Str) : Bool :=
  searchAtomsAny [[al "부", aw, al "없"], [al "부", aw, ac "xX"],
    [al "부가세", aw, ac "xX"], [al "부가세", aw, al "없"]] line

/-- VAT "check" family: `부가세|확인`. -/
def vatCheckMatch (line : Str) : Bool :=
  searchAtomsAny [[al "부가세"], [al "확인"]] line

/-- Strip a numbered-section marker `^N\.\s*` (`N.` plus whitespace). -/
def dropNumDot (mark : String) (line : Str) : Str :=
  if mark.data.isPrefixOf line then dropSpacesL (line.drop mark.length) else line

/-- Section 1 handler: price split via the Korean-numeral converter, then
the VAT keyword cascade (on the whole line), with the new-listing default. -/
def handleSec1 (skip : Bool) (line : Str) (d : PData) : PData :=
  let content1 := stripL (dropNumDot "1." line)
  let d :=
    match priceSplit content1 with
    | some (g1, g2) =>
      let d :=
        match parseKoreanNumber g1 with
        | some v => { d with bojeunggeum := some v }
        | none => d
      match parseKoreanNumber g2 with
      | some v => { d with wolse := some v }
      | none => d
    | none => d
  if vatSepMatch line then { d with bugase := some "별도" }
  else if vatNoneMatch line then { d with bugase := some "없음" }
  else if vatCheckMatch line then { d with bugase := some "확인필요" }
  else if ¬ skip then { d with bugase := some "확인필요" }
  else d

/-! ## Section 3: key money -/

/-- Strip the key-money word: `re.sub(r'^권리금\s*|^권(?:리)?\s*(?=\d)', '', s)`
(the bare `권` or `권리` is stripped only when followed, after spaces, by a
digit; the lookahead keeps the digit). -/
def stripGwonWord (s : Str) : Str :=
  if "권리금".data.isPrefixOf s then dropSpacesL (s.drop 3)
  else if "권리".data.isPrefixOf s ∧
      ((dropSpacesL (s.drop 2)).head?.map fun c => isDigitC c).getD false then
    dropSpacesL (s.drop 2)
  else if "권".data.isPrefixOf s ∧
      ((dropSpacesL (s.drop 1)).head?.map fun c => isDigitC c).getD false then
    dropSpacesL (s.drop 1)
  else s

/-- Lazy parenthetical capture `[(\(](.+?)[)\)]`: content from the first
`(` up to the first `)` lying at least two characters later. -/
def parenContentLazy : Str → Option Str
  | [] => none
  | '(' :: rest =>
    match rest with
    | [] => none
    | c0 :: r1 =>
      let more := r1.takeWhile fun c => c ≠ ')'
      match r1.drop more.length with
      | ')' :: _ => some (c0 :: more)
      | _ => none
  | _ :: rest => parenContentLazy rest

/-- Remove every lazy parenthetical `[(\(].+?[)\)]` match. -/
def removeParenLazy : ℕ → Str → Str
  | 0, s => s
  | _ + 1, [] => []
  | fuel + 1, '(' :: rest =>
    (match rest with
     | [] => ['(']
     | c0 :: r1 =>
       let more := r1.takeWhile fun c => c ≠ ')'
       match r1.drop more.length with
       | ')' :: r2 => removeParenLazy fuel r2
       | _ => '(' :: removeParenLazy fuel (c0 :: r1))
  | fuel + 1, c :: rest => c :: removeParenLazy fuel rest

/-- The "no key money" alternatives `무권리|권\s*없|권\s*[xX]|권리금\s*[xX]`. -/
def noGwonPats : List (List RAtom) :=
  [[al "무권리"], [al "권", aw, al "없"], [al "권", aw, ac "xX"],
   [al "권리금", aw, ac "xX"]]

/-- Search for the "no key money" family. -/
def noGwonMatch (s : Str) : Bool := searchAtomsAny noGwonPats s

/-- Strip leading `[,\s]+`. -/
def dropCommaSpace (s : Str) : Str :=
  s.dropWhile fun c => c = ',' ∨ isSpaceC c = true

/-- Strip a leading `만\s*원?\s*` unit word (`re.sub(r'^만\s*원?\s*', '', s)`). -/
def dropManWon (s : Str) : Str :=
  match s with
  | '만' :: r =>
    let r1 := dropSpacesL r
    match r1 with
    | '원' :: r2 => dropSpacesL r2
    | _ => r1
  | _ => s

/-- The key-money text after numbering and key-money word stripping. -/
def rightsTextOf (line : Str) : Str :=
  stripL (stripGwonWord (stripL (dropNumDot "3." line)))

/-- The key-money text with the parenthetical removed. -/
def rightsCleanOf (line : Str) : Str :=
  stripL (removeParenLazy (rightsTextOf line).length (rightsTextOf line))

/-- Section 3 handler: numbered prefix and key-money word stripped, one
parenthetical extracted as memo candidate, then the numeric / no-key-money /
fallback cascade. -/
def handleSec3 (line : Str) (d : PData) : PData :=
  let rightsText := rightsTextOf line
  let parenMemo := (parenContentLazy rightsText).map stripL |>.getD []
  let rightsClean := rightsCleanOf line
  match rightsClean.takeWhile fun c => isDigitC c with
  | [] =>
    if noGwonMatch rightsText ∨ rightsText = "0".data then
      let remaining :=
        stripL (dropCommaSpace (stripL (removeAtomsAll noGwonPats rightsText.length rightsText)))
      let d := { d with gwonrigeum := some 0 }
      if parenMemo ≠ [] then { d with gwonrigeumMemo := some (mkS parenMemo) }
      else if remaining ≠ [] then { d with gwonrigeumMemo := some (mkS remaining) }
      else { d with gwonrigeumMemo := some "무권리" }
    else { d with gwonrigeumMemo := some (mkS rightsText) }
  | ds =>
    let d := { d with gwonrigeum := some ((digitsVal ds : ℤ)) }
    if parenMemo ≠ [] then { d with gwonrigeumMemo := some (mkS parenMemo) }
    else
      let remaining := stripL (rightsClean.drop ds.length |> dropSpacesL)
      let remaining := stripL (dropManWon remaining)
      if remaining ≠ [] then { d with gwonrigeumMemo := some (mkS remaining) }
      else d


/-! ## Section 5: parking / bathroom -/

/-- Parking negation family `주차\s*[xX]|주차\s*불가|주차\s*안\s*됨`. -/
def parkNegMatch (s : Str) : Bool :=
  searchAtomsAny [[al "주차", aw, ac "xX"], [al "주차", aw, al "불가"],
    [al "주차", aw, al "안", aw, al "됨"]] s

/-- Collapse whitespace runs to single spaces, tracking whether the
previous character was whitespace. -/
def collapseWsGo (prevSpace : Bool) : Str → Str
  | [] => []
  | c :: rest =>
    if isSpaceC c then
      if prevSpace then collapseWsGo true rest
      else ' ' :: collapseWsGo true rest
    else c :: collapseWsGo false rest

/-- Collapse whitespace runs to single spaces (`re.sub(r'\s+', ' ', s)`). -/
def collapseWs (s : Str) : Str := collapseWsGo false s

/-- Insert a space between a Hangul syllable and an immediately following
digit (`re.sub(r'([가-힣])(\d)', r'\1 \2', s)`, non-overlapping). -/
def hangulDigitSpace : Str → Str
  | [] => []
  | [c] => [c]
  | a :: b :: rest =>
    if isHangulC a ∧ isDigitC b then a :: ' ' :: b :: hangulDigitSpace rest
    else a :: hangulDigitSpace (b :: rest)

/-- Remove every occurrence of the filler words `하긴한데|애매|선착순`. -/
def removeFillers (fuel : ℕ) (s : Str) : Str :=
  removeAtomsAll [[al "하긴한데"], [al "애매"], [al "선착순"]] fuel s

/-- The parking-memo cleanup pipeline of the section 5 handler, step for
step as in the source. -/
def parkMemoPipeline (p0 : Str) : Str :=
  let p1 :=
    if "주차".data.isPrefixOf p0 then
      let r := dropSpacesL (p0.drop 2)
      match r with
      | '는' :: t => dropSpacesL t
      | '은' :: t => dropSpacesL t
      | _ => r
    else p0
  let p1 := stripL p1
  let p2 :=
    match p1 with
    | c :: t => if c = 'o' ∨ c = 'O' ∨ c = 'ㅇ' ∨ c = '가' ∨ c = '능' then dropSpacesL t else p1
    | [] => p1
  let p2 := stripL p2
  let p3 := if "가능".data.isPrefixOf p2 then dropSpacesL (p2.drop 2) else p2
  let p3 := stripL p3
  let p4 :=
    match p3 with
    | '장' :: r =>
      let r1 := dropSpacesL r
      if "사용".data.isPrefixOf r1 then "주차장".data ++ r1.drop 2 else p3
    | _ => p3
  let p5 := p4.filter fun c => ¬ (c = '(' ∨ c = ')')
  let p6 := stripL (removeFillers p5.length p5)
  let p7 := hangulDigitSpace p6
  stripL (collapseWs p7)

/-- Bathroom count capture `화장실\s*(\d+)` (leftmost occurrence followed by
digits). -/
def bathCount : Str → Option Str
  | [] => none
  | s@(_ :: rest) =>
    if "화장실".data.isPrefixOf s then
      let r := dropSpacesL (s.drop 3)
      match r.takeWhile fun c => isDigitC c with
      | [] => bathCount rest
      | ds => some ds
    else bathCount rest

/-- One bathroom part of the section 5 handler: the count capture and the
interior/exterior keywords. -/
def bathApply (d : PData) (part : Str) : PData :=
  let d :=
    match bathCount part with
    | some n => { d with bathCountStr := some (mkS n ++ "개") }
    | none => d
  if containsSub "내부".data part then { d with bathLoc := some "내부" }
  else if containsSub "외부".data part then { d with bathLoc := some "외부" }
  else d

/-- Parking part of the section 5 handler. -/
def parkApply (parkingText : Str) (d : PData) : PData :=
  if parkingText ≠ [] ∧ containsSub "주차".data parkingText then
    if parkNegMatch parkingText then { d with parking := some "불가능" }
    else
      let d := { d with parking := some "가능" }
      let pm := parkMemoPipeline parkingText
      if pm ≠ [] then { d with parkingMemo := some (mkS pm) } else d
  else d

/-- Section 5 handler: split on `/`, bathroom parts are the ones containing
the bathroom keyword, the rest joined into the parking text. -/
def handleSec5 (line : Str) (d : PData) : PData :=
  let content5 := stripL (dropNumDot "5." line)
  let parts5 := (splitOnChar '/' content5).map stripL
  let bathParts := parts5.filter fun p => containsSub "화장실".data p
  let parkParts := parts5.filter fun p => ¬ containsSub "화장실".data p
  let parkingText := stripL (List.intercalate [' '] (parkParts.map mkS |>.map String.data))
  bathParts.foldl bathApply (parkApply parkingText d)

/-! ## Sections 6 and 7: direction, violation status -/

/-- The eight compass words, in the source's alternation order. -/
def directionWords : List String :=
  ["남향", "북향", "동향", "서향", "남동향", "남서향", "북동향", "북서향"]

/-- Section 6 handler. -/
def handleSec6 (line : Str) (d : PData) : PData :=
  match findFirstLit directionWords line with
  | some w => { d with direction := some w }
  | none => d

/-- Violation-present family `위반\s*[oOㅇ]|대장\s*(위반|불법|위법)`. -/
def violOMatch (s : Str) : Bool :=
  searchAtomsAny [[al "위반", aw, ac "oOㅇ"], [al "대장", aw, al "위반"],
    [al "대장", aw, al "불법"], [al "대장", aw, al "위법"]] s

/-- Violation-absent family
`위반\s*[xXㅌ]|대장\s*[oOㅇ]|대장\s*이상\s*[무없]|대장\s*정상`. -/
def violXMatch (s : Str) : Bool :=
  searchAtomsAny [[al "위반", aw, ac "xXㅌ"], [al "대장", aw, ac "oOㅇ"],
    [al "대장", aw, al "이상", aw, ac "무없"], [al "대장", aw, al "정상"]] s

/-- Section 7 handler. -/
def handleSec7 (line : Str) (d : PData) : PData :=
  if violOMatch line then { d with violation := some "위반건축물O" }
  else if violXMatch line then { d with violation := some "위반건축물X" }
  else d

/-! ## Section 8: contacts -/

/-- Take exactly `n` digits. -/
def takeDigitsN (n : ℕ) (s : Str) : Option (Str × Str) :=
  let t := s.take n
  if t.length = n ∧ t.all fun c => isDigitC c then some (t, s.drop n) else none

/-- Take a (possibly empty) separator run `[-\s]*`. -/
def takeSepRun (s : Str) : Str × Str :=
  (s.takeWhile fun c => c = '-' ∨ isSpaceC c = true,
   s.dropWhile fun c => c = '-' ∨ isSpaceC c = true)

/-- Match the phone pattern `\d{2,3}[-\s]*\d{3,4}[-\s]*\d{4}` at the head
of `s`, returning the matched substring.  Greedy counts with backtracking:
3 then 2 for the first group, 4 then 3 for the second. -/
def phoneAt (s : Str) : Option Str :=
  [3, 2].findSome? fun n1 =>
    match takeDigitsN n1 s with
    | none => none
    | some (d1, r1) =>
      let (sep1, r2) := takeSepRun r1
      [4, 3].findSome? fun n2 =>
        match takeDigitsN n2 r2 with
        | none => none
        | some (d2, r3) =>
          let (sep2, r4) := takeSepRun r3
          match takeDigitsN 4 r4 with
          | none => none
          | some (d3, _) => some (d1 ++ sep1 ++ d2 ++ sep2 ++ d3)

/-- Leftmost phone-pattern match in `s`. -/
def phoneSearch : Str → Option Str
  | [] => none
  | s@(_ :: rest) =>
    match phoneAt s with
    | some p => some p
    | none => phoneSearch rest

/-- Greedy continuation `(?:\s+[가-힣]+)*` of a Hangul-word run. -/
def memoExtend : ℕ → Str → Str
  | 0, _ => []
  | fuel + 1, s =>
    let sp := s.takeWhile fun c => isSpaceC c
    let r := s.drop sp.length
    let run := r.takeWhile fun c => isHangulC c
    if sp ≠ [] ∧ run ≠ [] then sp ++ run ++ memoExtend fuel (r.drop run.length)
    else []

/-- Leftmost match of `([가-힣]+(?:\s+[가-힣]+)*)`: the first Hangul run,
greedily extended over single whitespace gaps to further Hangul runs. -/
def memoSearch : Str → Option Str
  | [] => none
  | s@(c :: rest) =>
    if isHangulC c then
      let run := s.takeWhile fun x => isHangulC x
      let r := s.drop run.length
      some (run ++ memoExtend r.length r)
    else memoSearch rest

/-- Embedding of `PropertyParser._store_contact`: the phone and memo slots
of index `idx` (0, 1 or 2); indexes above 2 are ignored. -/
def storeContact (d : PData) (contact : Str) (idx : ℕ) : PData :=
  if idx > 2 then d
  else
    let phone := (phoneSearch contact).getD []
    let memo := (memoSearch contact).getD []
    if idx = 0 then
      let d := if phone ≠ [] then { d with phone0 := some (mkS phone) } else d
      if memo ≠ [] then { d with memo0 := some (mkS memo) } else d
    else if idx = 1 then
      let d := if phone ≠ [] then { d with phone1 := some (mkS phone) } else d
      if memo ≠ [] then { d with memo1 := some (mkS memo) } else d
    else
      let d := if phone ≠ [] then { d with phone2 := some (mkS phone) } else d
      if memo ≠ [] then { d with memo2 := some (mkS memo) } else d

/-- Store a list of contact entries starting at index `i`, the model of the
section 8 loop over the slash-separated entries. -/
def storeContacts (d : PData) (cs : List Str) (i : ℕ) : PData × ℕ :=
  cs.foldl (fun acc c => (storeContact acc.1 c acc.2, acc.2 + 1)) (d, i)


/-! ## Section 4: building use and floor areas -/

/-- Candidate rests after the optional word pair `(?:O1)?(?:O2)?` in greedy
backtracking order: both, first only, second only, neither. -/
def optionsAfter (o1 o2 : Str) (s : Str) : List Str :=
  (if o1.isPrefixOf s ∧ o2.isPrefixOf (s.drop o1.length) then
    [s.drop (o1.length + o2.length)] else [])
  ++ (if o1.isPrefixOf s then [s.drop o1.length] else [])
  ++ (if o2.isPrefixOf s then [s.drop o2.length] else [])
  ++ [s]

/-- First candidate that, after a greedy `\s*`, starts with a digit. -/
def firstDigitViable (cands : List Str) : Option Str :=
  cands.findSome? fun c =>
    let c2 := dropSpacesL c
    if (c2.head?.map fun x => isDigitC x).getD false then some c2 else none

/-- Resolve the optional contract prefix `(?:계(?:약)?(?:면적)?\s*)?` before a
digit group: with a leading `계` the word options are tried in greedy order,
otherwise a digit must sit at the position itself. -/
def numStart : Str → Option Str
  | [] => none
  | '계' :: r => firstDigitViable (optionsAfter "약".data "면적".data r)
  | s@(c :: _) => if isDigitC c then some s else none

/-- Resolve the optional exclusive-area prefix `(?:전(?:용)?(?:면적)?\s*)?`. -/
def exclStart : Str → Option Str
  | [] => none
  | '전' :: r => firstDigitViable (optionsAfter "용".data "면적".data r)
  | s@(c :: _) => if isDigitC c then some s else none

/-- Greedy decimal capture `(\d+\.?\d*)` at the head of `s`. -/
def takeDec (s : Str) : Option (Str × Str) :=
  match s.takeWhile fun c => isDigitC c with
  | [] => none
  | ds =>
    let r := s.drop ds.length
    match r with
    | '.' :: r2 =>
      let fs := r2.takeWhile fun c => isDigitC c
      some (ds ++ '.' :: fs, r2.drop fs.length)
    | _ => some (ds, r)

/-- Drop an optional area unit `(?:m2|㎡)?`. -/
def dropUnit (s : Str) : Str :=
  if "m2".data.isPrefixOf s then s.drop 2
  else if "㎡".data.isPrefixOf s then s.drop 1
  else s

/-- The separator `\s*(?:m2|㎡)?\s*(?:[/,]\s*|\s+(?=전))` after the contract
number: an optional unit between whitespace, then either a slash/comma or at
least one whitespace character directly before `전` (the lookahead keeps
`전`).  The `\s+` has to match after the unit when a unit was consumed. -/
def sepStep (s : Str) : Option Str :=
  let w1 := s.takeWhile fun c => isSpaceC c
  let s1 := s.drop w1.length
  let s2 := dropUnit s1
  let w2 := s2.takeWhile fun c => isSpaceC c
  let s3 := s2.drop w2.length
  match s3 with
  | '/' :: r => some (dropSpacesL r)
  | ',' :: r => some (dropSpacesL r)
  | '전' :: _ =>
    if (if s2 = s1 then w1.length else w2.length) ≥ 1 then some s3 else none
  | _ => none

/-- One attempted match of the multi-floor area pattern (면적_패턴)
`(\d+)층\s+(?:계(?:약)?(?:면적)?\s*)?(\d+\.?\d*)\s*(?:m2|㎡)?\s*`
`(?:[/,]\s*|\s+(?=전))(?:전(?:용)?(?:면적)?\s*)?(\d+\.?\d*)` at the head of
`s`, returning (floor, contract, exclusive) captures and the rest. -/
def areaMatchAt (s : Str) : Option ((Str × Str × Str) × Str) :=
  match s.takeWhile fun c => isDigitC c with
  | [] => none
  | fs =>
    match s.drop fs.length with
    | '층' :: r1 =>
      let w := r1.takeWhile fun c => isSpaceC c
      if w.length = 0 then none
      else
        match numStart (r1.drop w.length) with
        | none => none
        | some r3 =>
          match takeDec r3 with
          | none => none
          | some (con, r4) =>
            match sepStep r4 with
            | none => none
            | some r5 =>
              match exclStart r5 with
              | none => none
              | some r6 =>
                match takeDec r6 with
                | none => none
                | some (exc, r7) => some ((fs, con, exc), r7)
    | _ => none

/-- `re.findall` scan of the multi-floor area pattern. -/
def areaFindAllGo : ℕ → Str → List (Str × Str × Str)
  | 0, _ => []
  | _ + 1, [] => []
  | fuel + 1, s@(_ :: rest) =>
    match areaMatchAt s with
    | some (cap, r) => cap :: areaFindAllGo fuel r
    | none => areaFindAllGo fuel rest

/-- All multi-floor area captures of a section 4 content line. -/
def areaFindAll (s : Str) : List (Str × Str × Str) := areaFindAllGo s.length s

/-- Candidates, in the regex engine\x27s backtracking priority order, for the
decimal capture `(\d+\.?\d*)` at the head of `s`: the integer run greedy
longest first, then a dot kept before dropped, then the trailing digit run
greedy longest first.  Each candidate pairs the captured text with the rest
of the string. -/
def decCands (s : Str) : List (Str × Str) :=
  let ds := s.takeWhile fun c => isDigitC c
  (List.range ds.length).flatMap fun i =>
    let k := ds.length - i
    let rest := s.drop k
    let withDot :=
      match rest with
      | '.' :: r2 =>
        let fs := r2.takeWhile fun c => isDigitC c
        (List.range (fs.length + 1)).map fun j =>
          (ds.take k ++ '.' :: fs.take (fs.length - j), r2.drop (fs.length - j))
      | _ => []
    let noDot :=
      let fs := rest.takeWhile fun c => isDigitC c
      (List.range (fs.length + 1)).map fun j =>
        (ds.take k ++ fs.take (fs.length - j), rest.drop (fs.length - j))
    withDot ++ noDot

/-- Candidate rests for `\s*` at the head of `s`, greedy: most spaces
consumed first, none last. -/
def spaceCands (s : Str) : List Str :=
  let w := s.takeWhile fun c => isSpaceC c
  (List.range (w.length + 1)).map fun j => s.drop (w.length - j)

/-- Candidate rests for the optional unit `(?:m2|㎡)?`: unit consumed first,
absent last. -/
def unitCands (s : Str) : List Str :=
  (match s with
   | 'm' :: '2' :: r => [r]
   | '㎡' :: r => [r]
   | _ => []) ++ [s]

/-- Candidate rests for an optional literal `(?:w)?`: present first. -/
def optCands (w s : Str) : List Str :=
  (if w.isPrefixOf s then [s.drop w.length] else []) ++ [s]

/-- Candidate rests for the optional contract prefix
`(?:계(?:약)?(?:면적)?\s*)?`, the group\x27s inner options in backtracking
order, the whole group absent last. -/
def pfx1Cands (s : Str) : List Str :=
  (match s with
   | '계' :: r =>
     (optCands "약".data r).flatMap fun r1 =>
       (optCands "면적".data r1).flatMap fun r2 => spaceCands r2
   | _ => []) ++ [s]

/-- Candidate rests for the optional `(?:약\s*)?` ahead of the pyeong
capture. -/
def g3pfxCands (s : Str) : List Str :=
  (match s with
   | '약' :: r => spaceCands r
   | _ => []) ++ [s]

/-- The lazy gap `[^/]*?`: the continuation is tried at the current position
first, then the gap grows one character at a time, never across a slash. -/
def lazyScan {α : Type} (k : Str → Option α) : Str → Option α
  | [] => k []
  | s@(c :: rest) =>
    match k s with
    | some v => some v
    | none => if c = '/' then none else lazyScan k rest

/-- The pyeong tail `(?:약\s*)?(\d+\.?\d*)\s*평` of the detailed pattern at
the head of `s`, with full capture backtracking. -/
def g3Match (s : Str) : Option (Str × Str) :=
  (g3pfxCands s).findSome? fun u2 =>
    (decCands u2).findSome? fun pr =>
      (spaceCands pr.2).findSome? fun u3 =>
        match u3 with
        | '평' :: u4 => some (pr.1, u4)
        | _ => none

/-- The exclusive part `전(?:용)?(?:면적)?\s*(\d+\.?\d*)\s*(?:m2|㎡)?` of the
detailed pattern, followed by its lazy gap and the pyeong tail.  Every
choice backtracks on downstream failure, the most recent first, so digits
released from the exclusive capture can satisfy the pyeong capture. -/
def g2Match (s : Str) : Option (Str × Str × Str) :=
  match s with
  | '전' :: t2 =>
    (optCands "용".data t2).findSome? fun t3 =>
      (optCands "면적".data t3).findSome? fun t4 =>
        (spaceCands t4).findSome? fun t5 =>
          (decCands t5).findSome? fun er =>
            (spaceCands er.2).findSome? fun t6 =>
              (unitCands t6).findSome? fun t7 =>
                lazyScan (fun u1 =>
                  match g3Match u1 with
                  | some (p, r) => some (er.1, p, r)
                  | none => none) t7
  | _ => none

/-- The contract part `(?:계(?:약)?(?:면적)?\s*)?(\d+\.?\d*)\s*(?:m2|㎡)?` of
the detailed pattern, followed by its lazy gap and the exclusive part. -/
def g1Match (s : Str) : Option (Str × Str × Str × Str) :=
  (pfx1Cands s).findSome? fun s2 =>
    (decCands s2).findSome? fun cr =>
      (spaceCands cr.2).findSome? fun s3 =>
        (unitCands s3).findSome? fun s4 =>
          lazyScan (fun t1 =>
            match g2Match t1 with
            | some (y, p, r) => some (cr.1, y, p, r)
            | none => none) s4

/-- One attempted match of the detailed pattern (상세_패턴)
`(\d+)층[^/]*?…계약…[^/]*?전용…[^/]*?(?:약\s*)?(\d+\.?\d*)\s*평` at the head
of `s`, returning the (floor, contract, exclusive, pyeong) captures and the
rest after the match. -/
def detailMatchAt (s : Str) : Option ((Str × Str × Str × Str) × Str) :=
  match s.takeWhile fun c => isDigitC c with
  | [] => none
  | fs =>
    match s.drop fs.length with
    | '층' :: r1 =>
      match lazyScan g1Match r1 with
      | some (x, y, p, r) => some ((fs, x, y, p), r)
      | none => none
    | _ => none

/-- `re.findall` scan of the detailed pattern. -/
def detailFindAllGo : ℕ → Str → List (Str × Str × Str × Str)
  | 0, _ => []
  | _ + 1, [] => []
  | fuel + 1, s@(_ :: rest) =>
    match detailMatchAt s with
    | some (cap, r) => cap :: detailFindAllGo fuel r
    | none => detailFindAllGo fuel rest

/-- All detailed-pattern captures of a section 4 content line. -/
def detailFindAll (s : Str) : List (Str × Str × Str × Str) := detailFindAllGo s.length s

/-- Round half to even (Python `round` tie behaviour) to an integer.  The
fractional part is built with `mkRat` (it equals `q - ⌊q⌋`). -/
def roundHalfEven (q : ℚ) : ℤ :=
  let fl := ⌊q⌋
  let fr := mkRat (q.num - fl * (q.den : ℤ)) q.den
  if fr < mkRat 1 2 then fl
  else if mkRat 1 2 < fr then fl + 1
  else if fl % 2 = 0 then fl else fl + 1

/-- The value `q * 10` in explicit form. -/
def qMul10 (q : ℚ) : ℚ := mkRat (q.num * 10) q.den

/-- Model of Python `round(x, 1)`: round half to even at one decimal. -/
def pyRound1 (q : ℚ) : ℚ := mkRat (roundHalfEven (qMul10 q)) 10

/-- The value `q / 3.3` (= `q * 10 / 33`) in explicit form. -/
def py33 (q : ℚ) : ℚ := mkRat (q.num * 10) (q.den * 33)

/-- Per-floor record of the 층별_정보 dictionary: contract area, exclusive
area and pyeong. -/
structure FloorInfo where
  con : ℚ
  exc : ℚ
  pye : ℚ
deriving DecidableEq, Repr

/-- Dictionary insert with overwrite (key position preserved), the model of
`dict[k] = v`. -/
def insertReplace (k : Str) (v : FloorInfo) : List (Str × FloorInfo) → List (Str × FloorInfo)
  | [] => [(k, v)]
  | (k2, v2) :: t => if k2 = k then (k2, v) :: t else (k2, v2) :: insertReplace k v t

/-- One multi-floor capture entering the dictionary: pyeong is the
exclusive area divided by 3.3, rounded to one decimal. -/
def baseInsert (d : List (Str × FloorInfo)) (c : Str × Str × Str) : List (Str × FloorInfo) :=
  insertReplace c.1
    ⟨parseDec c.2.1, parseDec c.2.2, pyRound1 (py33 (parseDec c.2.2))⟩ d

/-- Floor dictionary contributed by the multi-floor pattern. -/
def baseDict (caps : List (Str × Str × Str)) : List (Str × FloorInfo) :=
  caps.foldl baseInsert []

/-- One detailed-pattern capture entering the dictionary, only where the
floor key is not yet present; the captured explicit pyeong value is kept. -/
def detailInsert (d : List (Str × FloorInfo)) (c : Str × Str × Str × Str) :
    List (Str × FloorInfo) :=
  if (d.find? fun e => e.1 == c.1).isSome then d
  else d ++ [(c.1,
    ⟨(if c.2.1 = [] then 0 else parseDec c.2.1),
     (if c.2.2.1 = [] then 0 else parseDec c.2.2.1),
     (if c.2.2.2 = [] then 0 else parseDec c.2.2.2)⟩)]

/-- Floors added by the detailed pattern. -/
def addDetail (d0 : List (Str × FloorInfo)) (caps : List (Str × Str × Str × Str)) :
    List (Str × FloorInfo) :=
  caps.foldl detailInsert d0

/-- The complete floor dictionary of a section 4 content line. -/
def floorDict (c : Str) : List (Str × FloorInfo) :=
  addDetail (baseDict (areaFindAll c)) (detailFindAll c)

/-- Sum of the contract areas over the floor dictionary. -/
def sumCon (d : List (Str × FloorInfo)) : ℚ := d.foldl (fun a e => qAdd a e.2.con) 0

/-- Sum of the exclusive areas over the floor dictionary. -/
def sumExc (d : List (Str × FloorInfo)) : ℚ := d.foldl (fun a e => qAdd a e.2.exc) 0

/-- Stable insertion by numeric floor key (`sorted(keys, key=int)`). -/
def insertByKey (x : Str × FloorInfo) : List (Str × FloorInfo) → List (Str × FloorInfo)
  | [] => [x]
  | y :: t =>
    if digitsVal x.1 < digitsVal y.1 then x :: y :: t else y :: insertByKey x t

/-- Stable sort of the floor dictionary by numeric floor key. -/
def sortFloors (d : List (Str × FloorInfo)) : List (Str × FloorInfo) :=
  d.foldl (fun acc x => insertByKey x acc) []

/-- Keycap emoji for floors 1–10, `"N층"` beyond. -/
def emojiFor (k : Str) : String :=
  if k = "1".data then "1️⃣" else if k = "2".data then "2️⃣"
  else if k = "3".data then "3️⃣" else if k = "4".data then "4️⃣"
  else if k = "5".data then "5️⃣" else if k = "6".data then "6️⃣"
  else if k = "7".data then "7️⃣" else if k = "8".data then "8️⃣"
  else if k = "9".data then "9️⃣" else if k = "10".data then "🔟"
  else mkS k ++ "층"

/-- Pyeong display: an integral value drops the decimal point. -/
def pyeongStr (q : ℚ) : String := if q.den = 1 then toString q.num else floatRepr q

/-- The 층별면적상세 display string, floors in ascending numeric order. -/
def detailStr (d : List (Str × FloorInfo)) : String :=
  String.intercalate " "
    ((sortFloors d).map fun e => emojiFor e.1 ++ pyeongStr e.2.pye ++ "p")

/-- One attempted match of the unified single-property pattern (통합)
`(?:계(?:약)?(?:면적)?\s*)?(\d+\.?\d*)\s*(?:m2|㎡)?\s*`
`(?:[/,]\s*|\s+(?=전))(?:전(?:용)?(?:면적)?\s*)?(\d+\.?\d*)`. -/
def uMatchAt (s : Str) : Option (Str × Str) :=
  match numStart s with
  | none => none
  | some r =>
    match takeDec r with
    | none => none
    | some (x, r2) =>
      match sepStep r2 with
      | none => none
      | some r3 =>
        match exclStart r3 with
        | none => none
        | some r4 =>
          match takeDec r4 with
          | none => none
          | some (y, _) => some (x, y)

/-- Leftmost match of the unified pattern. -/
def unifiedSearch : Str → Option (Str × Str)
  | [] => none
  | s@(_ :: rest) =>
    match uMatchAt s with
    | some r => some r
    | none => unifiedSearch rest

/-- Leftmost match of `계(?:약)?(?:면적)?\s*(\d+\.?\d*)\s*(?:m2|㎡)?` (the
leading `계` is mandatory), returning the digit capture. -/
def kyeSearch : Str → Option Str
  | [] => none
  | c :: rest =>
    if c = '계' then
      match firstDigitViable (optionsAfter "약".data "면적".data rest) with
      | some r2 => (takeDec r2).map fun p => p.1
      | none => kyeSearch rest
    else kyeSearch rest

/-- Leftmost match of `전(?:용)?(?:면적)?\s*(\d+\.?\d*)\s*(?:m2|㎡)?`. -/
def jeonSearch : Str → Option Str
  | [] => none
  | c :: rest =>
    if c = '전' then
      match firstDigitViable (optionsAfter "용".data "면적".data rest) with
      | some r2 => (takeDec r2).map fun p => p.1
      | none => jeonSearch rest
    else jeonSearch rest

/-- Area part of the section 4 handler: floor dictionary totals when any
floor was captured, otherwise the single-property fallbacks. -/
def sec4Area (c : Str) (d : PData) : PData :=
  let dict := floorDict c
  if dict ≠ [] then
    { d with contractArea := some (sumCon dict), exclArea := some (sumExc dict),
             perFloorAreaDetail := some (detailStr dict) }
  else
    match unifiedSearch c with
    | some (a, b) =>
      { d with contractArea := some (parseDec a), exclArea := some (parseDec b) }
    | none =>
      let d :=
        match kyeSearch c with
        | some a => { d with contractArea := some (parseDec a) }
        | none => d
      match jeonSearch c with
      | some b => { d with exclArea := some (parseDec b) }
      | none => d

/-! ### Floor-use extraction `PropertyParser._parse_floor_uses` and the
use normalizer -/

/-- Atoms of a keyword with `\s*` tolerated between its characters. -/
def sparseAtoms (w : String) : List RAtom :=
  match w.data with
  | [] => []
  | c :: cs => RAtom.lit [c] :: cs.foldr (fun x acc => aw :: RAtom.lit [x] :: acc) []

/-- Class-1 neighbourhood-facility family.  The source alternation is
`(?:제\s*)?1\s*종|1\s*종\s*근\s*(?:린\s*)?(?:생)?|근\s*생\s*1\s*종|근\s*린\s*1\s*종`;
optional pure-suffix parts are flattened away (they never change whether a
match exists). -/
def use1JongMatch (s : Str) : Bool :=
  searchAtomsAny [[al "제", aw, al "1", aw, al "종"], [al "1", aw, al "종"],
    [al "1", aw, al "종", aw, al "근"],
    [al "근", aw, al "생", aw, al "1", aw, al "종"],
    [al "근", aw, al "린", aw, al "1", aw, al "종"]] s

/-- Class-2 neighbourhood-facility family (mirror of the class-1 family). -/
def use2JongMatch (s : Str) : Bool :=
  searchAtomsAny [[al "제", aw, al "2", aw, al "종"], [al "2", aw, al "종"],
    [al "2", aw, al "종", aw, al "근"],
    [al "근", aw, al "생", aw, al "2", aw, al "종"],
    [al "근", aw, al "린", aw, al "2", aw, al "종"]] s

/-- Embedding of `PropertyParser._normalize_building_use`. -/
def normalizeBuildingUse (s0 : Str) : Str :=
  let s := stripL s0
  if use1JongMatch s then "제1종근린생활시설".data
  else if use2JongMatch s then "제2종근린생활시설".data
  else if searchAtomsAny [sparseAtoms "판매시설"] s then "판매시설".data
  else if searchAtomsAny [sparseAtoms "위락시설"] s then "위락시설".data
  else if searchAtomsAny [sparseAtoms "숙박시설"] s then "숙박시설".data
  else if searchAtomsAny [sparseAtoms "의료시설"] s then "의료시설".data
  else if searchAtomsAny [sparseAtoms "교육연구시설", sparseAtoms "교육시설"] s then
    "교육연구시설".data
  else if searchAtomsAny [sparseAtoms "업무시설"] s then "업무시설".data
  else if searchAtomsAny [sparseAtoms "수련시설"] s then "수련시설".data
  else if searchAtomsAny [sparseAtoms "공장"] s then "공장".data
  else if searchAtomsAny [sparseAtoms "창고"] s then "창고시설".data
  else s

/-- Embedding of `PropertyParser._abbreviate_building_use`. -/
def abbreviateBuildingUse (u : String) : String :=
  if u = "제1종근린생활시설" then "제1종"
  else if u = "제2종근린생활시설" then "제2종"
  else if u = "판매시설" then "판매"
  else if u = "위락시설" then "위락"
  else if u = "숙박시설" then "숙박"
  else if u = "의료시설" then "의료"
  else if u = "교육연구시설" then "교육"
  else if u = "업무시설" then "업무"
  else if u = "수련시설" then "수련"
  else if u = "공장" then "공장"
  else if u = "창고시설" then "창고"
  else u

/-- Remove every `\d+\.?\d*\s*/\s*\d+\.?\d*` area-pair token. -/
def removeAreaPairs : ℕ → Str → Str
  | 0, s => s
  | _ + 1, [] => []
  | fuel + 1, s@(c :: rest) =>
    match takeDec s with
    | some (_, r) =>
      (match dropSpacesL r with
       | '/' :: r2 =>
         (match takeDec (dropSpacesL r2) with
          | some (_, r3) => removeAreaPairs fuel r3
          | none => c :: removeAreaPairs fuel rest)
       | _ => c :: removeAreaPairs fuel rest)
    | none => c :: removeAreaPairs fuel rest

/-- Remove every ASCII parenthetical `\([^)]*\)` (pyeong notes). -/
def removeParensAll : ℕ → Str → Str
  | 0, s => s
  | _ + 1, [] => []
  | fuel + 1, '(' :: rest =>
    (let inner := rest.takeWhile fun c => c ≠ ')'
     match rest.drop inner.length with
     | ')' :: r2 => removeParensAll fuel r2
     | _ => '(' :: removeParensAll fuel rest)
  | fuel + 1, c :: rest => c :: removeParensAll fuel rest

/-- Remove every `(?:계(?:약)?|전(?:용)?)\s*\d+\.?\d*\s*(?:m2|㎡)` token
(the area unit is mandatory here). -/
def removeKyeJeonUnit : ℕ → Str → Str
  | 0, s => s
  | _ + 1, [] => []
  | fuel + 1, c :: rest =>
    let opts : List Str :=
      if c = '계' then
        (if "약".data.isPrefixOf rest then [rest.drop 1] else []) ++ [rest]
      else if c = '전' then
        (if "용".data.isPrefixOf rest then [rest.drop 1] else []) ++ [rest]
      else []
    match opts.findSome? fun o =>
        match takeDec (dropSpacesL o) with
        | none => none
        | some (_, r) =>
          let r2 := dropSpacesL r
          if "m2".data.isPrefixOf r2 then some (r2.drop 2)
          else if "㎡".data.isPrefixOf r2 then some (r2.drop 1)
          else none with
    | some r => removeKyeJeonUnit fuel r
    | none => c :: removeKyeJeonUnit fuel rest

/-- The cleaned text `_parse_floor_uses` scans for floor markers. -/
def cleanedUseText (s : Str) : Str :=
  stripL (removeKyeJeonUnit s.length (removeParensAll s.length (removeAreaPairs s.length s)))

/-- Repetition stops of `(\d+(?:[,~\-]\d+)*)`: the captured key after 0, 1,
2, … group repetitions, each with the rest of the input. -/
def repStops : ℕ → Str → Str → List (Str × Str)
  | 0, key, s => [(key, s)]
  | fuel + 1, key, s =>
    match s with
    | c :: r =>
      if c = ',' ∨ c = '~' ∨ c = '-' then
        match r.takeWhile fun x => isDigitC x with
        | [] => [(key, s)]
        | ds => (key, s) :: repStops fuel (key ++ c :: ds) (r.drop ds.length)
      else [(key, s)]
    | [] => [(key, s)]

/-- One attempted floor-marker match `(\d+(?:[,~\-]\d+)*)\s*층` at the head
of `s` (greedy repetitions, backtracking down), returning the key capture
and the rest after the floor glyph. -/
def markerMatchAt (s : Str) : Option (Str × Str) :=
  match s.takeWhile fun c => isDigitC c with
  | [] => none
  | d0 =>
    let rest0 := s.drop d0.length
    (repStops rest0.length d0 rest0).reverse.findSome? fun kr =>
      match dropSpacesL kr.2 with
      | '층' :: r2 => some (kr.1, r2)
      | _ => none

/-- Leftmost floor marker: the text before it, its key, and the rest. -/
def findMarker : Str → Option (Str × Str × Str)
  | [] => none
  | s@(c :: rest) =>
    match markerMatchAt s with
    | some (k, r) => some ([], k, r)
    | none => (findMarker rest).map fun t => (c :: t.1, t.2.1, t.2.2)

/-- Strip whitespace and commas from both ends
(`re.sub(r'^[\s,]+|[\s,]+$', '', s)`). -/
def trimCommaSpace (s : Str) : Str :=
  let t := s.dropWhile fun c => isSpaceC c = true ∨ c = ','
  (t.reverse.dropWhile fun c => isSpaceC c = true ∨ c = ',').reverse

/-- Walk the floor markers: the span between one marker and the next (or
the end) is that floor's use text; empty spans are dropped. -/
def floorUsePairsGo : ℕ → Str → Str → List (Str × Str)
  | 0, key, s =>
    let u := trimCommaSpace (stripL s)
    if u ≠ [] then [(key, normalizeBuildingUse u)] else []
  | fuel + 1, key, s =>
    match findMarker s with
    | some (pre, k2, r2) =>
      let u := trimCommaSpace (stripL pre)
      (if u ≠ [] then [(key, normalizeBuildingUse u)] else []) ++ floorUsePairsGo fuel k2 r2
    | none =>
      let u := trimCommaSpace (stripL s)
      if u ≠ [] then [(key, normalizeBuildingUse u)] else []

/-- Embedding of `PropertyParser._parse_floor_uses`. -/
def floorUsePairs (content : Str) : List (Str × Str) :=
  let cleaned := cleanedUseText content
  match findMarker cleaned with
  | none => []
  | some (_, k, r) => floorUsePairsGo r.length k r

/-! ### The use split of the no-floor fallback -/

/-- Does one of the split alternatives
`\s*/\s*계약(?:면적)?|\s+계약(?:면적)?|\s*/\s*전용(?:면적)?|\s+전용(?:면적)?|\s*\d+층`
match at this position? -/
def useSplitAt (s : Str) : Bool :=
  let t := dropSpacesL s
  (match t with
   | '/' :: r =>
     let r2 := dropSpacesL r
     "계약".data.isPrefixOf r2 || "전용".data.isPrefixOf r2
   | _ => false)
  ||
  (match s with
   | c :: r =>
     isSpaceC c &&
       (let r2 := dropSpacesL r
        "계약".data.isPrefixOf r2 || "전용".data.isPrefixOf r2)
   | [] => false)
  ||
  (match t.takeWhile fun c => isDigitC c with
   | [] => false
   | ds => (t.drop ds.length).head? == some '층')

/-- Text before the leftmost split alternative (`re.split(...)[0]`). -/
def useTextOf : Str → Str
  | [] => []
  | s@(c :: rest) => if useSplitAt s then [] else c :: useTextOf rest

/-- Keep first occurrences only (`dict.fromkeys`-style dedup, order kept). -/
def dedupKeepOrder (l : List String) : List String :=
  l.foldl (fun acc x => if acc.contains x then acc else acc ++ [x]) []

/-- Use part of the section 4 handler: several distinct floor uses populate
the list and the per-floor summary, a single pair populates the list alone,
no floor markers fall back to the text before the first area token. -/
def sec4Use (c : Str) (d : PData) : PData :=
  match floorUsePairs c with
  | [] =>
    let ut := rstripSet " /".data (stripL (useTextOf c))
    if ut ≠ [] then { d with building := some [mkS (normalizeBuildingUse ut)] } else d
  | [p] => { d with building := some [mkS p.2] }
  | pairs =>
    let uses := dedupKeepOrder (pairs.map fun p => mkS p.2)
    let perFloor := String.intercalate " / "
      (pairs.map fun p => mkS p.1 ++ "층 " ++ abbreviateBuildingUse (mkS p.2))
    { d with building := some uses, perFloorUseStr := some perFloor }

/-- Section 4 handler. -/
def handleSec4 (line : Str) (d : PData) : PData :=
  let c := stripL (dropNumDot "4." line)
  sec4Use c (sec4Area c d)


/-! ## The line state machine and `parse_property_info` -/

/-- Numbered-line test `re.match(r'^\d+\.', line)`. -/
def isNumbered (line : Str) : Bool :=
  match line.takeWhile fun c => isDigitC c with
  | [] => false
  | ds => (line.drop ds.length).head? == some '.'

/-- Continuation test of the section 4 line merger:
`re.search(r'\d+층|\d+\.?\d*/\d+', stripped)`. -/
def contMarker : Str → Bool
  | [] => false
  | s@(c :: rest) =>
    (if isDigitC c then
      let ds := s.takeWhile fun x => isDigitC x
      let r := s.drop ds.length
      (r.head? == some '층')
      || (match r with
          | '/' :: r2 => (r2.head?.map fun x => isDigitC x).getD false
          | '.' :: r2 =>
            let fs := r2.takeWhile fun x => isDigitC x
            (match r2.drop fs.length with
             | '/' :: r3 => (r3.head?.map fun x => isDigitC x).getD false
             | _ => false)
          | _ => false)
    else false)
    || contMarker rest

/-- One line of `PropertyParser._merge_section4_lines`: a non-numbered,
non-empty line with a floor or area marker is appended to the previous
logical line while inside section 4. -/
def mergeStep (acc : List Str × Bool) (line : Str) : List Str × Bool :=
  let result := acc.1
  let in4 := acc.2
  let stripped := stripL line
  let isNum := isNumbered stripped
  if "4.".data.isPrefixOf stripped then (result ++ [stripped], true)
  else if in4 ∧ ¬ (isNum = true) ∧ stripped ≠ [] then
    if contMarker stripped ∧ result ≠ [] then
      match result.reverse with
      | lastL :: front => (((lastL ++ ' ' :: stripped) :: front).reverse, true)
      | [] => (result ++ [line], false)
    else (result ++ [line], false)
  else (result ++ [line], if isNum then false else in4)

/-- Embedding of `PropertyParser._merge_section4_lines`. -/
def mergeSec4 (text : Str) : Str :=
  let lines := splitOnChar '\n' text
  let result := (lines.foldl mergeStep ([], false)).1
  List.intercalate ['\n'] result

/-- Non-empty parenthetical capture `\(([^)]+)\)` of the address line. -/
def parenContentNE : Str → Option Str
  | [] => none
  | '(' :: rest =>
    (let run := rest.takeWhile fun c => c ≠ ')'
     if run ≠ [] ∧ (rest.drop run.length).head? == some ')' then some run
     else parenContentNE rest)
  | _ :: rest => parenContentNE rest

/-- Address-line handling of a new-listing parse: the verbatim address, the
duplex/whole-building hint from a parenthetical, the administrative
district, and the partial-rent marker. -/
def addressData (line : Str) : PData :=
  let d : PData := {}
  let d := { d with juso := some (mkS line) }
  let d :=
    match parenContentNE line with
    | some inner =>
      if containsSub "복층".data inner then { d with maemulHyeong := some "복층" }
      else if containsSub "통상가".data inner then { d with maemulHyeong := some "통상가" }
      else d
    | none => d
  let d :=
    match findFirstLit ["중구", "동구", "서구", "남구", "북구", "수성구", "달서구", "달성군"] line with
    | some g => { d with sojaejiGu := some g }
    | none => d
  if containsSub "일부".data line then { d with imdaeGubun := some "🌓일부" } else d

/-- State of the line loop. -/
structure PState where
  data : PData
  notesAcc : List Str
  inSpecial : Bool
  contactIdx : ℕ
  inContacts : Bool
deriving Repr

/-- Special-notes keyword line: enter notes mode, optionally set the append
flag, and take same-line text as the first note. -/
def specialEntry (st : PState) (line : Str) : PState :=
  let st := { st with inSpecial := true, inContacts := false }
  if containsSub "특이사항+".data line then
    let st := { st with data := { st.data with notesAppend := some true } }
    let rest := stripL (afterFirst "특이사항+".data line)
    if rest ≠ [] then { st with notesAcc := st.notesAcc ++ [rest] } else st
  else
    let rest := stripL (afterFirst "특이사항".data line)
    if rest ≠ [] then { st with notesAcc := st.notesAcc ++ [rest] } else st

/-- Section 8 handler: split the content on `/` and store each entry at
consecutive contact indexes. -/
def handleSec8 (line : Str) (st : PState) : PState :=
  let content := stripL (dropNumDot "8." line)
  let cs := (splitOnChar '/' content).map stripL
  let dp := storeContacts st.data cs 0
  { st with data := dp.1, contactIdx := dp.2, inContacts := true }

/-- Continuation line while in contacts mode: a phone-shaped line below the
cap becomes the next contact, anything else switches to notes mode. -/
def contactCont (st : PState) (line : Str) : PState :=
  if (phoneSearch line).isSome ∧ st.contactIdx < 3 then
    { st with data := storeContact st.data line st.contactIdx,
              contactIdx := st.contactIdx + 1 }
  else
    { st with inContacts := false, inSpecial := true, notesAcc := st.notesAcc ++ [line] }

/-- The numbered-section dispatch chain of the main loop, in the source's
`elif` order (`st1` already has contacts mode cleared when due). -/
def dispatchLine (skip : Bool) (st1 : PState) (line : Str) (isNum : Bool) : PState :=
  if "1.".data.isPrefixOf line then { st1 with data := handleSec1 skip line st1.data }
  else if "2.".data.isPrefixOf line then
    { st1 with data := { st1.data with gwanribi := some (mkS (stripL (dropNumDot "2." line))) } }
  else if "3.".data.isPrefixOf line then { st1 with data := handleSec3 line st1.data }
  else if "4.".data.isPrefixOf line then { st1 with data := handleSec4 line st1.data }
  else if "5.".data.isPrefixOf line then { st1 with data := handleSec5 line st1.data }
  else if "6.".data.isPrefixOf line then { st1 with data := handleSec6 line st1.data }
  else if "7.".data.isPrefixOf line then { st1 with data := handleSec7 line st1.data }
  else if "8.".data.isPrefixOf line then handleSec8 line st1
  else if st1.inContacts ∧ ¬ (isNum = true) then contactCont st1 line
  else if ¬ (isNum = true) ∧ pdataNonempty st1.data then
    { st1 with inSpecial := true, notesAcc := st1.notesAcc ++ [line] }
  else st1

/-- One trimmed, non-empty line of the main loop of
`parse_property_info`, dispatched exactly in the source's order. -/
def processLine (skip : Bool) (st : PState) (line : Str) : PState :=
  if containsSub "특이사항".data line then specialEntry st line
  else if st.inSpecial then { st with notesAcc := st.notesAcc ++ [line] }
  else
    let isNum := isNumbered line
    dispatchLine skip
      (if isNum ∧ ¬ ("8.".data.isPrefixOf line) then { st with inContacts := false } else st)
      line isNum

/-- The main line loop: strip each line, skip empty ones, process the rest. -/
def lineFold (skip : Bool) (st : PState) (ls : List Str) : PState :=
  ls.foldl
    (fun st l =>
      let line := stripL l
      if line = [] then st else processLine skip st line)
    st

/-- Finalization: collected special notes are joined with newlines. -/
def finishPD (st : PState) : PData :=
  if st.notesAcc ≠ [] then
    { st.data with notes := some (String.intercalate "\n" (st.notesAcc.map mkS)) }
  else st.data

/-- Initial record and remaining lines: a new-listing parse consumes the
first line as the address. -/
def initOf (skip : Bool) (ls : List Str) : PData × List Str :=
  if skip then ({}, ls)
  else
    match ls with
    | [] => ({}, [])
    | l0 :: rest => (addressData (stripL l0), rest)

/-- Embedding of `PropertyParser.parse_property_info` on character lists. -/
def parsePD (text : Str) (skip : Bool) : PData :=
  let merged := mergeSec4 (stripL text)
  let ls := splitOnChar '\n' (stripL merged)
  let init := initOf skip ls
  finishPD (lineFold skip
    { data := init.1, notesAcc := [], inSpecial := false, contactIdx := 0, inContacts := false }
    init.2)

/-- Embedding of `PropertyParser.parse_property_info`. -/
def parse (s : String) (skip : Bool) : PData := parsePD s.data skip

/-! ## Predicates used by the verification statements -/

/-- The three contact slots (phone, memo) of the result record. -/
def contactSlots (d : PData) : List (Option String × Option String) :=
  [(d.phone0, d.memo0), (d.phone1, d.memo1), (d.phone2, d.memo2)]

/-- Number of contact entries present in the record. -/
def contactCount (d : PData) : ℕ :=
  (contactSlots d).countP fun s => s.1.isSome || s.2.isSome

/-- Sign invariants of the numeric fields: key money, contract area and
exclusive area are non-negative whenever present. -/
def GoodPD (d : PData) : Prop :=
  (∀ x ∈ d.gwonrigeum, (0 : ℤ) ≤ x) ∧ (∀ q ∈ d.contractArea, (0 : ℚ) ≤ q) ∧
  (∀ q ∈ d.exclArea, (0 : ℚ) ≤ q)

/-- The per-floor-use field is only ever populated together with the
building-use field. -/
def UseJoint (d : PData) : Prop := d.perFloorUseStr.isSome → d.building.isSome

/-- The fields whose preservation the line-step lemmas track: the four
address-derived fields, the three sign-checked numeric fields and the two
use fields. -/
def Pres9 (d d2 : PData) : Prop :=
  d2.juso = d.juso ∧ d2.maemulHyeong = d.maemulHyeong ∧ d2.sojaejiGu = d.sojaejiGu ∧
  d2.imdaeGubun = d.imdaeGubun ∧ d2.gwonrigeum = d.gwonrigeum ∧
  d2.contractArea = d.contractArea ∧ d2.exclArea = d.exclArea ∧
  d2.building = d.building ∧ d2.perFloorUseStr = d.perFloorUseStr

/-- What one step of the line loop is allowed to do to the tracked fields:
address fields are untouched, the sign invariants and the joint-use
invariant are preserved. -/
def StepOK (d d2 : PData) : Prop :=
  d2.juso = d.juso ∧ d2.maemulHyeong = d.maemulHyeong ∧ d2.sojaejiGu = d.sojaejiGu ∧
  d2.imdaeGubun = d.imdaeGubun ∧ (GoodPD d → GoodPD d2) ∧ (UseJoint d → UseJoint d2)




theorem mkRat_nat_nonneg (a : ℤ) (b : ℕ) (h : 0 ≤ a) : 0 ≤ mkRat a b := by
  rw [Rat.mkRat_eq_div]
  positivity

theorem parseDec_nonneg (s : Str) : 0 ≤ parseDec s := by
  unfold parseDec
  exact mkRat_nat_nonneg _ _ (by positivity)

theorem pres9_refl (d : PData) : Pres9 d d :=
  ⟨rfl, rfl, rfl, rfl, rfl, rfl, rfl, rfl, rfl⟩

theorem pres9_trans {a b c : PData} (h1 : Pres9 a b) (h2 : Pres9 b c) : Pres9 a c := by
  obtain ⟨x1, x2, x3, x4, x5, x6, x7, x8, x9⟩ := h1
  obtain ⟨y1, y2, y3, y4, y5, y6, y7, y8, y9⟩ := h2
  exact ⟨y1.trans x1, y2.trans x2, y3.trans x3, y4.trans x4, y5.trans x5, y6.trans x6,
    y7.trans x7, y8.trans x8, y9.trans x9⟩

theorem pres9_handleSec1 (skip : Bool) (line : Str) (d : PData) :
    Pres9 d (handleSec1 skip line d) := by
  unfold Pres9 handleSec1
  repeat' (first | split | dsimp only)
  all_goals exact ⟨rfl, rfl, rfl, rfl, rfl, rfl, rfl, rfl, rfl⟩

theorem pres9_bathApply (d : PData) (part : Str) :
    Pres9 d (bathApply d part) := by
  unfold Pres9 bathApply
  repeat' (first | split | dsimp only)
  all_goals exact ⟨rfl, rfl, rfl, rfl, rfl, rfl, rfl, rfl, rfl⟩

theorem pres9_parkApply (t : Str) (d : PData) :
    Pres9 d (parkApply t d) := by
  unfold Pres9 parkApply
  repeat' (first | split | dsimp only)
  all_goals exact ⟨rfl, rfl, rfl, rfl, rfl, rfl, rfl, rfl, rfl⟩

theorem pres9_bathFold (parts : List Str) (d : PData) :
    Pres9 d (parts.foldl bathApply d) := by
  induction parts generalizing d with
  | nil => exact pres9_refl d
  | cons p t ih =>
    have h1 := pres9_bathApply d p
    have h2 := ih (bathApply d p)
    simpa [List.foldl] using pres9_trans h1 h2

theorem pres9_handleSec5 (line : Str) (d : PData) :
    Pres9 d (handleSec5 line d) := by
  unfold handleSec5
  dsimp only
  exact pres9_trans (pres9_parkApply _ _) (pres9_bathFold _ _)

theorem pres9_handleSec6 (line : Str) (d : PData) :
    Pres9 d (handleSec6 line d) := by
  unfold Pres9 handleSec6
  repeat' (first | split | dsimp only)
  all_goals exact ⟨rfl, rfl, rfl, rfl, rfl, rfl, rfl, rfl, rfl⟩

theorem pres9_handleSec7 (line : Str) (d : PData) :
    Pres9 d (handleSec7 line d) := by
  unfold Pres9 handleSec7
  repeat' (first | split | dsimp only)
  all_goals exact ⟨rfl, rfl, rfl, rfl, rfl, rfl, rfl, rfl, rfl⟩

theorem pres9_storeContact (d : PData) (c : Str) (i : ℕ) :
    Pres9 d (storeContact d c i) := by
  unfold Pres9 storeContact
  repeat' (first | split | dsimp only)
  all_goals exact ⟨rfl, rfl, rfl, rfl, rfl, rfl, rfl, rfl, rfl⟩

theorem pres9_storeContacts (cs : List Str) (d : PData) (i : ℕ) :
    Pres9 d (storeContacts d cs i).1 := by
  induction cs generalizing d i with
  | nil => exact pres9_refl d
  | cons c t ih =>
    have h1 := pres9_storeContact d c i
    have h2 := ih (storeContact d c i) (i + 1)
    simpa [storeContacts, List.foldl] using pres9_trans h1 h2

theorem sec3_frame (line : Str) (d : PData) :
    (handleSec3 line d).juso = d.juso ∧ (handleSec3 line d).maemulHyeong = d.maemulHyeong ∧
    (handleSec3 line d).sojaejiGu = d.sojaejiGu ∧ (handleSec3 line d).imdaeGubun = d.imdaeGubun ∧
    (handleSec3 line d).contractArea = d.contractArea ∧ (handleSec3 line d).exclArea = d.exclArea ∧
    (handleSec3 line d).building = d.building ∧
    (handleSec3 line d).perFloorUseStr = d.perFloorUseStr := by
  unfold handleSec3
  repeat' (first | split | dsimp only)
  all_goals exact ⟨rfl, rfl, rfl, rfl, rfl, rfl, rfl, rfl⟩

theorem sec3_gwonrigeum_nonneg (line : Str) (d : PData)
    (hd : ∀ x ∈ d.gwonrigeum, (0 : ℤ) ≤ x) :
    ∀ x ∈ (handleSec3 line d).gwonrigeum, (0 : ℤ) ≤ x := by
  unfold handleSec3
  repeat' (first | split | dsimp only)
  all_goals
    first
      | exact hd
      | (intro x hx; injection hx with h; subst h; positivity)

theorem mem_insertReplace {k : Str} {v : FloorInfo} {l : List (Str × FloorInfo)}
    {e : Str × FloorInfo} (h : e ∈ insertReplace k v l) : e = (k, v) ∨ e ∈ l := by
  induction l with
  | nil => simpa [insertReplace] using h
  | cons y t ih =>
    unfold insertReplace at h
    by_cases hk : y.1 = k
    · rw [if_pos hk] at h
      rcases List.mem_cons.mp h with h1 | h1
      · subst hk; exact Or.inl (by simpa using h1)
      · exact Or.inr (List.mem_cons_of_mem _ h1)
    · rw [if_neg hk] at h
      rcases List.mem_cons.mp h with h1 | h1
      · exact Or.inr (h1 ▸ List.mem_cons_self _ _)
      · rcases ih h1 with h2 | h2
        · exact Or.inl h2
        · exact Or.inr (List.mem_cons_of_mem _ h2)

theorem foldl_baseInsert_good (caps : List (Str × Str × Str))
    (acc : List (Str × FloorInfo))
    (hacc : ∀ e ∈ acc, (0 : ℚ) ≤ e.2.con ∧ (0 : ℚ) ≤ e.2.exc ∧
      e.2.pye = pyRound1 (py33 e.2.exc)) :
    ∀ e ∈ caps.foldl baseInsert acc, (0 : ℚ) ≤ e.2.con ∧ (0 : ℚ) ≤ e.2.exc ∧
      e.2.pye = pyRound1 (py33 e.2.exc) := by
  induction caps generalizing acc with
  | nil => exact hacc
  | cons c t ih =>
    intro e he
    refine ih (baseInsert acc c) ?_ e (by simpa [List.foldl] using he)
    intro e2 he2
    rcases mem_insertReplace (by simpa [baseInsert] using he2) with h | h
    · subst h
      exact ⟨parseDec_nonneg _, parseDec_nonneg _, rfl⟩
    · exact hacc e2 h

theorem foldl_detailInsert_good (caps : List (Str × Str × Str × Str))
    (acc : List (Str × FloorInfo))
    (hacc : ∀ e ∈ acc, (0 : ℚ) ≤ e.2.con ∧ (0 : ℚ) ≤ e.2.exc) :
    ∀ e ∈ caps.foldl detailInsert acc, (0 : ℚ) ≤ e.2.con ∧ (0 : ℚ) ≤ e.2.exc := by
  induction caps generalizing acc with
  | nil => exact hacc
  | cons c t ih =>
    intro e he
    refine ih (detailInsert acc c) ?_ e (by simpa [List.foldl] using he)
    intro e2 he2
    unfold detailInsert at he2
    by_cases hs : ((acc.find? fun e => e.1 == c.1).isSome : Bool) = true
    · rw [if_pos hs] at he2
      exact hacc e2 he2
    · rw [if_neg hs] at he2
      rcases List.mem_append.mp he2 with h | h
      · exact hacc e2 h
      · simp only [List.mem_singleton] at h
        subst h
        constructor
        · dsimp only
          split <;> first | exact le_refl 0 | exact parseDec_nonneg _
        · dsimp only
          split <;> first | exact le_refl 0 | exact parseDec_nonneg _

theorem floorDict_good (c : Str) :
    ∀ e ∈ floorDict c, (0 : ℚ) ≤ e.2.con ∧ (0 : ℚ) ≤ e.2.exc := by
  intro e he
  unfold floorDict addDetail at he
  refine foldl_detailInsert_good _ _ ?_ e he
  intro e2 he2
  have h := foldl_baseInsert_good (areaFindAll c) [] (by simp) e2 (by simpa [baseDict] using he2)
  exact ⟨h.1, h.2.1⟩

theorem baseDict_pyeong (caps : List (Str × Str × Str)) :
    ∀ e ∈ baseDict caps, e.2.pye = pyRound1 (py33 e.2.exc) := by
  intro e he
  exact (foldl_baseInsert_good caps [] (by simp) e he).2.2

theorem qAdd_nonneg {a b : ℚ} (ha : 0 ≤ a) (hb : 0 ≤ b) : 0 ≤ qAdd a b := by
  unfold qAdd
  refine mkRat_nat_nonneg _ _ ?_
  have h1 : 0 ≤ a.num := Rat.num_nonneg.mpr ha
  have h2 : 0 ≤ b.num := Rat.num_nonneg.mpr hb
  positivity

theorem qAdd_eq (a b : ℚ) : qAdd a b = a + b := by
  unfold qAdd
  have hda : ((a.den : ℚ)) ≠ 0 := Nat.cast_ne_zero.mpr a.den_nz
  have hdb : ((b.den : ℚ)) ≠ 0 := Nat.cast_ne_zero.mpr b.den_nz
  rw [Rat.mkRat_eq_div]
  push_cast
  conv_rhs => rw [← Rat.num_div_den a, ← Rat.num_div_den b]
  rw [div_add_div _ _ hda hdb]
  ring_nf

theorem foldl_qAdd_nonneg (f : Str × FloorInfo → ℚ) (l : List (Str × FloorInfo))
    (hf : ∀ e ∈ l, 0 ≤ f e) (a : ℚ) (ha : 0 ≤ a) :
    0 ≤ l.foldl (fun acc e => qAdd acc (f e)) a := by
  induction l generalizing a with
  | nil => simpa using ha
  | cons e t ih =>
    refine ih (fun x hx => hf x (List.mem_cons_of_mem _ hx)) _ ?_
    exact qAdd_nonneg ha (hf e (List.mem_cons_self _ _))

theorem sumCon_nonneg (c : Str) : (0 : ℚ) ≤ sumCon (floorDict c) := by
  unfold sumCon
  exact foldl_qAdd_nonneg (fun e => e.2.con) _ (fun e he => (floorDict_good c e he).1) 0 le_rfl

theorem sumExc_nonneg (c : Str) : (0 : ℚ) ≤ sumExc (floorDict c) := by
  unfold sumExc
  exact foldl_qAdd_nonneg (fun e => e.2.exc) _ (fun e he => (floorDict_good c e he).2) 0 le_rfl

theorem insertReplace_ne_nil (k : Str) (v : FloorInfo) (l : List (Str × FloorInfo)) :
    insertReplace k v l ≠ [] := by
  cases l with
  | nil => simp [insertReplace]
  | cons y t =>
    unfold insertReplace
    split <;> simp

theorem foldl_baseInsert_ne (caps : List (Str × Str × Str)) (acc : List (Str × FloorInfo))
    (h : acc ≠ [] ∨ caps ≠ []) : caps.foldl baseInsert acc ≠ [] := by
  induction caps generalizing acc with
  | nil =>
    rcases h with h | h
    · simpa using h
    · simp at h
  | cons c t ih =>
    refine ih (baseInsert acc c) (Or.inl ?_)
    exact insertReplace_ne_nil _ _ _

theorem foldl_detailInsert_ne (caps : List (Str × Str × Str × Str))
    (acc : List (Str × FloorInfo)) (h : acc ≠ []) : caps.foldl detailInsert acc ≠ [] := by
  induction caps generalizing acc with
  | nil => simpa using h
  | cons c t ih =>
    refine ih (detailInsert acc c) ?_
    unfold detailInsert
    split
    · exact h
    · rcases acc with _ | ⟨y, t2⟩ <;> simp

theorem floorDict_ne (c : Str) (h : areaFindAll c ≠ []) : floorDict c ≠ [] := by
  unfold floorDict addDetail baseDict
  exact foldl_detailInsert_ne _ _ (foldl_baseInsert_ne _ _ (Or.inr h))

theorem mem_insertByKey {x y : Str × FloorInfo} {l : List (Str × FloorInfo)}
    (h : y ∈ insertByKey x l) : y = x ∨ y ∈ l := by
  induction l with
  | nil => simpa [insertByKey] using h
  | cons z t ih =>
    unfold insertByKey at h
    split at h
    · rcases List.mem_cons.mp h with h1 | h1
      · exact Or.inl h1
      · exact Or.inr h1
    · rcases List.mem_cons.mp h with h1 | h1
      · exact Or.inr (h1 ▸ List.mem_cons_self _ _)
      · rcases ih h1 with h2 | h2
        · exact Or.inl h2
        · exact Or.inr (List.mem_cons_of_mem _ h2)

theorem sorted_insertByKey (x : Str × FloorInfo) (l : List (Str × FloorInfo))
    (h : l.Sorted fun a b => digitsVal a.1 ≤ digitsVal b.1) :
    (insertByKey x l).Sorted fun a b => digitsVal a.1 ≤ digitsVal b.1 := by
  induction l with
  | nil => simp [insertByKey]
  | cons y t ih =>
    rw [List.sorted_cons] at h
    unfold insertByKey
    split
    · rename_i hlt
      refine List.sorted_cons.mpr ⟨?_, List.sorted_cons.mpr ⟨h.1, h.2⟩⟩
      intro b hb
      rcases List.mem_cons.mp hb with h1 | h1
      · exact h1 ▸ le_of_lt hlt
      · exact le_trans (le_of_lt hlt) (h.1 b h1)
    · rename_i hge
      refine List.sorted_cons.mpr ⟨?_, ih h.2⟩
      intro b hb
      rcases mem_insertByKey hb with h1 | h1
      · exact h1 ▸ Nat.le_of_not_lt hge
      · exact h.1 b h1

theorem sortFloors_sorted (d : List (Str × FloorInfo)) :
    (sortFloors d).Sorted fun a b => digitsVal a.1 ≤ digitsVal b.1 := by
  unfold sortFloors
  have h : ∀ (l : List (Str × FloorInfo)) (acc : List (Str × FloorInfo)),
      acc.Sorted (fun a b => digitsVal a.1 ≤ digitsVal b.1) →
      (l.foldl (fun acc x => insertByKey x acc) acc).Sorted
        (fun a b => digitsVal a.1 ≤ digitsVal b.1) := by
    intro l
    induction l with
    | nil => intro acc hacc; simpa using hacc
    | cons z t ih =>
      intro acc hacc
      exact ih _ (sorted_insertByKey z acc hacc)
  exact h d [] (by simp)

theorem sec4Area_frame (c : Str) (d : PData) :
    (sec4Area c d).juso = d.juso ∧ (sec4Area c d).maemulHyeong = d.maemulHyeong ∧
    (sec4Area c d).sojaejiGu = d.sojaejiGu ∧ (sec4Area c d).imdaeGubun = d.imdaeGubun ∧
    (sec4Area c d).gwonrigeum = d.gwonrigeum ∧ (sec4Area c d).building = d.building ∧
    (sec4Area c d).perFloorUseStr = d.perFloorUseStr := by
  unfold sec4Area
  repeat' (first | split | dsimp only)
  all_goals exact ⟨rfl, rfl, rfl, rfl, rfl, rfl, rfl⟩

theorem sec4Area_areas (c : Str) (d : PData) :
    ((sec4Area c d).contractArea = d.contractArea ∨
      (sec4Area c d).contractArea = some (sumCon (floorDict c)) ∨
      ∃ t, (sec4Area c d).contractArea = some (parseDec t)) ∧
    ((sec4Area c d).exclArea = d.exclArea ∨
      (sec4Area c d).exclArea = some (sumExc (floorDict c)) ∨
      ∃ t, (sec4Area c d).exclArea = some (parseDec t)) := by
  unfold sec4Area
  repeat' (first | split | dsimp only)
  all_goals constructor
  all_goals
    first
      | exact Or.inl rfl
      | exact Or.inr (Or.inl rfl)
      | exact Or.inr (Or.inr ⟨_, rfl⟩)

theorem sec4Area_good (c : Str) (d : PData) (h : GoodPD d) : GoodPD (sec4Area c d) := by
  obtain ⟨g1, g2, g3⟩ := h
  obtain ⟨f1, f2, f3, f4, f5, f6, f7⟩ := sec4Area_frame c d
  obtain ⟨hc, he⟩ := sec4Area_areas c d
  refine ⟨?_, ?_, ?_⟩
  · rw [f5]; exact g1
  · rcases hc with h | h | ⟨t, h⟩ <;> rw [h]
    · exact g2
    · intro q hq; injection hq with hh; subst hh; exact sumCon_nonneg c
    · intro q hq; injection hq with hh; subst hh; exact parseDec_nonneg t
  · rcases he with h | h | ⟨t, h⟩ <;> rw [h]
    · exact g3
    · intro q hq; injection hq with hh; subst hh; exact sumExc_nonneg c
    · intro q hq; injection hq with hh; subst hh; exact parseDec_nonneg t

theorem sec4Use_frame (c : Str) (d : PData) :
    (sec4Use c d).juso = d.juso ∧ (sec4Use c d).maemulHyeong = d.maemulHyeong ∧
    (sec4Use c d).sojaejiGu = d.sojaejiGu ∧ (sec4Use c d).imdaeGubun = d.imdaeGubun ∧
    (sec4Use c d).gwonrigeum = d.gwonrigeum ∧ (sec4Use c d).contractArea = d.contractArea ∧
    (sec4Use c d).exclArea = d.exclArea := by
  unfold sec4Use
  repeat' (first | split | dsimp only)
  all_goals exact ⟨rfl, rfl, rfl, rfl, rfl, rfl, rfl⟩

theorem sec4Use_joint (c : Str) (d : PData) (h : UseJoint d) : UseJoint (sec4Use c d) := by
  unfold UseJoint at h ⊢
  unfold sec4Use
  repeat' (first | split | dsimp only)
  all_goals intro hs
  all_goals first | rfl | exact h hs

theorem stepOK_of_pres9 {a b : PData} (h : Pres9 a b) : StepOK a b := by
  obtain ⟨h1, h2, h3, h4, h5, h6, h7, h8, h9⟩ := h
  refine ⟨h1, h2, h3, h4, ?_, ?_⟩
  · intro ⟨g1, g2, g3⟩
    refine ⟨?_, ?_, ?_⟩
    · rw [h5]; exact g1
    · rw [h6]; exact g2
    · rw [h7]; exact g3
  · intro hu
    unfold UseJoint at hu ⊢
    rw [h8, h9]
    exact hu

theorem stepOK_refl (d : PData) : StepOK d d := stepOK_of_pres9 (pres9_refl d)

theorem stepOK_trans {a b c : PData} (h1 : StepOK a b) (h2 : StepOK b c) : StepOK a c := by
  obtain ⟨x1, x2, x3, x4, x5, x6⟩ := h1
  obtain ⟨y1, y2, y3, y4, y5, y6⟩ := h2
  exact ⟨y1.trans x1, y2.trans x2, y3.trans x3, y4.trans x4,
    fun g => y5 (x5 g), fun g => y6 (x6 g)⟩

theorem stepOK_handleSec3 (line : Str) (d : PData) : StepOK d (handleSec3 line d) := by
  obtain ⟨f1, f2, f3, f4, f5, f6, f7, f8⟩ := sec3_frame line d
  refine ⟨f1, f2, f3, f4, ?_, ?_⟩
  · intro ⟨g1, g2, g3⟩
    refine ⟨sec3_gwonrigeum_nonneg line d g1, ?_, ?_⟩
    · rw [f5]; exact g2
    · rw [f6]; exact g3
  · intro hu
    unfold UseJoint at hu ⊢
    rw [f7, f8]
    exact hu

theorem stepOK_handleSec4 (line : Str) (d : PData) : StepOK d (handleSec4 line d) := by
  unfold handleSec4
  dsimp only
  obtain ⟨a1, a2, a3, a4, a5, a6, a7⟩ := sec4Area_frame (stripL (dropNumDot "4." line)) d
  obtain ⟨u1, u2, u3, u4, u5, u6, u7⟩ :=
    sec4Use_frame (stripL (dropNumDot "4." line)) (sec4Area (stripL (dropNumDot "4." line)) d)
  refine ⟨u1.trans a1, u2.trans a2, u3.trans a3, u4.trans a4, ?_, ?_⟩
  · intro hg
    obtain ⟨g1, g2, g3⟩ := sec4Area_good (stripL (dropNumDot "4." line)) d hg
    refine ⟨?_, ?_, ?_⟩
    · rw [u5]; exact g1
    · rw [u6]; exact g2
    · rw [u7]; exact g3
  · intro hu
    refine sec4Use_joint _ _ ?_
    unfold UseJoint
    rw [a6, a7]
    intro hs
    exact hu hs

theorem pres9_specialEntry (st : PState) (line : Str) :
    Pres9 st.data (specialEntry st line).data := by
  unfold Pres9 specialEntry
  repeat' (first | split | dsimp only)
  all_goals exact ⟨rfl, rfl, rfl, rfl, rfl, rfl, rfl, rfl, rfl⟩

theorem pres9_contactCont (st : PState) (line : Str) :
    Pres9 st.data (contactCont st line).data := by
  unfold contactCont
  repeat' (first | split | dsimp only)
  · exact pres9_storeContact _ _ _
  · exact pres9_refl _

theorem pres9_handleSec8 (line : Str) (st : PState) :
    Pres9 st.data (handleSec8 line st).data := by
  unfold handleSec8
  dsimp only
  exact pres9_storeContacts _ _ _




theorem pres9_setGwanribi (d : PData) (v : Option String) :
    Pres9 d { d with gwanribi := v } :=
  ⟨rfl, rfl, rfl, rfl, rfl, rfl, rfl, rfl, rfl⟩

theorem stepOK_dispatchLine (skip : Bool) (st1 : PState) (line : Str) (isNum : Bool) :
    StepOK st1.data (dispatchLine skip st1 line isNum).data := by
  unfold dispatchLine
  by_cases h1 : "1.".data.isPrefixOf line = true
  · rw [if_pos h1]; dsimp only; exact stepOK_of_pres9 (pres9_handleSec1 _ _ _)
  · rw [if_neg h1]
    by_cases h2 : "2.".data.isPrefixOf line = true
    · rw [if_pos h2]; dsimp only; exact stepOK_of_pres9 (pres9_setGwanribi _ _)
    · rw [if_neg h2]
      by_cases h3 : "3.".data.isPrefixOf line = true
      · rw [if_pos h3]; dsimp only; exact stepOK_handleSec3 _ _
      · rw [if_neg h3]
        by_cases h4 : "4.".data.isPrefixOf line = true
        · rw [if_pos h4]; dsimp only; exact stepOK_handleSec4 _ _
        · rw [if_neg h4]
          by_cases h5 : "5.".data.isPrefixOf line = true
          · rw [if_pos h5]; dsimp only; exact stepOK_of_pres9 (pres9_handleSec5 _ _)
          · rw [if_neg h5]
            by_cases h6 : "6.".data.isPrefixOf line = true
            · rw [if_pos h6]; dsimp only; exact stepOK_of_pres9 (pres9_handleSec6 _ _)
            · rw [if_neg h6]
              by_cases h7 : "7.".data.isPrefixOf line = true
              · rw [if_pos h7]; dsimp only; exact stepOK_of_pres9 (pres9_handleSec7 _ _)
              · rw [if_neg h7]
                by_cases h8 : "8.".data.isPrefixOf line = true
                · rw [if_pos h8]; exact stepOK_of_pres9 (pres9_handleSec8 _ _)
                · rw [if_neg h8]
                  by_cases h9 : st1.inContacts = true ∧ ¬ (isNum = true)
                  · rw [if_pos h9]; exact stepOK_of_pres9 (pres9_contactCont _ _)
                  · rw [if_neg h9]
                    by_cases h10 : ¬ (isNum = true) ∧ pdataNonempty st1.data = true
                    · rw [if_pos h10]; exact stepOK_refl _
                    · rw [if_neg h10]; exact stepOK_refl _

theorem stepOK_processLine (skip : Bool) (st : PState) (line : Str) :
    StepOK st.data (processLine skip st line).data := by
  unfold processLine
  by_cases h1 : containsSub "특이사항".data line = true
  · rw [if_pos h1]; exact stepOK_of_pres9 (pres9_specialEntry _ _)
  · rw [if_neg h1]
    by_cases h2 : st.inSpecial = true
    · rw [if_pos h2]; exact stepOK_refl _
    · rw [if_neg h2]
      dsimp only
      by_cases h3 : isNumbered line = true ∧ ¬ ("8.".data.isPrefixOf line = true)
      · rw [if_pos h3]; exact stepOK_dispatchLine skip _ line _
      · rw [if_neg h3]; exact stepOK_dispatchLine skip _ line _

theorem stepOK_lineFold (lines : List Str) (skip : Bool) (st : PState) :
    StepOK st.data (lineFold skip st lines).data := by
  unfold lineFold
  induction lines generalizing st with
  | nil => exact stepOK_refl _
  | cons l t ih =>
    refine stepOK_trans ?_ (ih _)
    dsimp only
    split
    · exact stepOK_refl _
    · exact stepOK_processLine skip st (stripL l)

theorem pres9_finishPD (st : PState) : Pres9 st.data (finishPD st) := by
  unfold Pres9 finishPD
  repeat' (first | split | dsimp only)
  all_goals exact ⟨rfl, rfl, rfl, rfl, rfl, rfl, rfl, rfl, rfl⟩

theorem addressData_rest (line : Str) :
    (addressData line).gwonrigeum = none ∧ (addressData line).contractArea = none ∧
    (addressData line).exclArea = none ∧ (addressData line).building = none ∧
    (addressData line).perFloorUseStr = none := by
  unfold addressData
  repeat' (first | split | dsimp only)
  all_goals exact ⟨rfl, rfl, rfl, rfl, rfl⟩

theorem goodPD_init (skip : Bool) (ls : List Str) : GoodPD (initOf skip ls).1 := by
  unfold initOf
  split
  · exact ⟨by simp, by simp, by simp⟩
  · split
    · exact ⟨by simp, by simp, by simp⟩
    · rename_i l0 rest
      obtain ⟨h1, h2, h3, _, _⟩ := addressData_rest (stripL l0)
      exact ⟨by rw [h1]; simp, by rw [h2]; simp, by rw [h3]; simp⟩

theorem useJoint_init (skip : Bool) (ls : List Str) : UseJoint (initOf skip ls).1 := by
  unfold initOf UseJoint
  split
  · simp
  · split
    · simp
    · rename_i l0 rest
      obtain ⟨_, _, _, _, h5⟩ := addressData_rest (stripL l0)
      rw [h5]
      simp

theorem parsePD_stepOK (text : Str) (skip : Bool) :
    StepOK (initOf skip (splitOnChar (Char.ofNat 10) (stripL (mergeSec4 (stripL text))))).1
      (parsePD text skip) := by
  unfold parsePD
  dsimp only
  refine stepOK_trans ?_ (stepOK_of_pres9 (pres9_finishPD _))
  exact stepOK_lineFold _ skip _

/-- Claim C1: for every input text and both modes, parse (a total function) yields a record with at most 3 contact slots filled, a non-negative key money when present, and non-negative contract and exclusive areas when present. -/
theorem c1_parse_safety (s : String) (skip : Bool) :
    contactCount (parse s skip) ≤ 3 ∧
    (∀ x ∈ (parse s skip).gwonrigeum, (0 : ℤ) ≤ x) ∧
    (∀ q ∈ (parse s skip).contractArea, (0 : ℚ) ≤ q) ∧
    (∀ q ∈ (parse s skip).exclArea, (0 : ℚ) ≤ q) := by
  obtain ⟨_, _, _, _, hg, _⟩ := parsePD_stepOK s.data skip
  have hgood := hg (goodPD_init skip _)
  refine ⟨?_, hgood.1, hgood.2.1, hgood.2.2⟩
  have hle := List.countP_le_length (l := contactSlots (parse s skip))
    (p := fun t => t.1.isSome || t.2.isSome)
  simpa [contactCount, contactSlots] using hle

/-- Claim C9: with the address line skipped, the four address-derived fields (address, property kind, district, partial-unit flag) are all absent from the parsed record. -/
theorem c9_skip_address_frame (s : String) :
    (parse s true).juso = none ∧ (parse s true).maemulHyeong = none ∧
    (parse s true).sojaejiGu = none ∧ (parse s true).imdaeGubun = none := by
  obtain ⟨hj, hm, hg, hi, _, _⟩ := parsePD_stepOK s.data true
  exact ⟨hj, hm, hg, hi⟩

/-- Claim C2 (amended): whenever the parsed record contains the per-floor-use field, it also contains the building-use field. The converse direction of the original claim is false, see the counterexample. -/
theorem c2_use_joint (s : String) (skip : Bool)
    (h : ((parse s skip).perFloorUseStr).isSome = true) :
    ((parse s skip).building).isSome = true := by
  obtain ⟨_, _, _, _, _, hu⟩ := parsePD_stepOK s.data skip
  exact hu (useJoint_init skip _) h

set_option maxHeartbeats 2000000 in
/-- Claim C2 counterexample: the single-use section-4 line stores building use alone while leaving the per-floor-use field absent, so the two fields are not populated jointly. -/
theorem c2_counterexample :
    ((parse "4. 판매시설" true).building).isSome = true ∧
    (parse "4. 판매시설" true).perFloorUseStr = none := by
  constructor <;> rfl

set_option maxHeartbeats 2000000 in
/-- Claim C2 witness: a two-floor section-4 line populates the per-floor-use field, and the amended theorem then yields the building-use field. -/
theorem c2_use_joint_witness :
    ((parse "4. 1층 1종 2층 2종" true).perFloorUseStr).isSome = true ∧
    ((parse "4. 1층 1종 2층 2종" true).building).isSome = true :=
  ⟨by rfl, c2_use_joint "4. 1층 1종 2층 2종" true (by rfl)⟩

theorem py33_spec (q : ℚ) : py33 q = q / (33 / 10 : ℚ) := by
  unfold py33
  have hd : ((q.den : ℚ)) ≠ 0 := Nat.cast_ne_zero.mpr q.den_nz
  rw [Rat.mkRat_eq_div]
  push_cast
  conv_rhs => rw [← Rat.num_div_den q]
  field_simp

theorem sec4Area_dict (c : Str) (d : PData) (h : floorDict c ≠ []) :
    (sec4Area c d).contractArea = some (sumCon (floorDict c)) ∧
    (sec4Area c d).exclArea = some (sumExc (floorDict c)) ∧
    (sec4Area c d).perFloorAreaDetail = some (detailStr (floorDict c)) := by
  unfold sec4Area
  dsimp only
  rw [if_pos h]
  exact ⟨rfl, rfl, rfl⟩

/-- Claim C3: when the multi-floor pattern captures at least one floor entry, the section-4 area pass stores the sums of per-floor contract and exclusive areas, stores the per-floor detail string, computes each captured floor entry's pyeong as its exclusive area divided by 3.3 rounded to one decimal (banker rounding as in Python), and the detail is built over the floors sorted by numeric floor value. -/
theorem c3_multi_floor (c : Str) (d : PData) (h : areaFindAll c ≠ []) :
    (sec4Area c d).contractArea = some (sumCon (floorDict c)) ∧
    (sec4Area c d).exclArea = some (sumExc (floorDict c)) ∧
    (sec4Area c d).perFloorAreaDetail = some (detailStr (floorDict c)) ∧
    (∀ e ∈ baseDict (areaFindAll c), e.2.pye = pyRound1 (e.2.exc / (33 / 10 : ℚ))) ∧
    (sortFloors (floorDict c)).Sorted (fun a b => digitsVal a.1 ≤ digitsVal b.1) := by
  obtain ⟨h1, h2, h3⟩ := sec4Area_dict c d (floorDict_ne c h)
  refine ⟨h1, h2, h3, ?_, sortFloors_sorted _⟩
  intro e he
  rw [← py33_spec]
  exact baseDict_pyeong _ e he

set_option maxHeartbeats 1000000 in
/-- Claim C3 witness: the concrete line from the spec yields contractArea = 90, exclArea = 90, both normalized building uses, and the two-floor per-floor-use string. -/
theorem c3_multi_floor_witness :
    areaFindAll (stripL (dropNumDot "4." "4. 1층 1종근생 2층 2종근생 1층 40/40 2층 50/50".data)) ≠ [] ∧
    (sec4Area (stripL (dropNumDot "4." "4. 1층 1종근생 2층 2종근생 1층 40/40 2층 50/50".data))
        ({} : PData)).contractArea = some 90 ∧
    (parse "4. 1층 1종근생 2층 2종근생 1층 40/40 2층 50/50" true).contractArea = some 90 ∧
    (parse "4. 1층 1종근생 2층 2종근생 1층 40/40 2층 50/50" true).exclArea = some 90 ∧
    (parse "4. 1층 1종근생 2층 2종근생 1층 40/40 2층 50/50" true).building
      = some ["제1종근린생활시설", "제2종근린생활시설"] ∧
    (parse "4. 1층 1종근생 2층 2종근생 1층 40/40 2층 50/50" true).perFloorUseStr
      = some "1층 제1종 / 2층 제2종" := by
  refine ⟨by decide, ?_, by rfl, by rfl, by rfl, by rfl⟩
  rw [(c3_multi_floor (stripL (dropNumDot "4." "4. 1층 1종근생 2층 2종근생 1층 40/40 2층 50/50".data))
    ({} : PData) (by decide)).1]
  rfl

/-- Claim C5: on a section-1 line matching none of the three VAT keyword families, a new listing gets VAT status set to the check-needed marker while update mode leaves the field exactly as it was. -/
theorem c5_vat_default (line : Str) (d : PData)
    (h1 : vatSepMatch line = false) (h2 : vatNoneMatch line = false)
    (h3 : vatCheckMatch line = false) :
    (handleSec1 false line d).bugase = some "확인필요" ∧
    (handleSec1 true line d).bugase = d.bugase := by
  constructor
  · unfold handleSec1
    dsimp only
    rw [h1, h2, h3, if_neg Bool.false_ne_true, if_neg Bool.false_ne_true,
      if_neg Bool.false_ne_true, if_pos Bool.false_ne_true]
  · unfold handleSec1
    dsimp only
    rw [h1, h2, h3, if_neg Bool.false_ne_true, if_neg Bool.false_ne_true,
      if_neg Bool.false_ne_true, if_neg (by decide : ¬ ¬ (true = true))]
    repeat' (first | split | dsimp only)
    all_goals rfl


/-- Claim C5 witness: a plain price line matches no VAT family; new-listing mode stores the marker and update mode leaves the field absent. -/
theorem c5_vat_default_witness :
    vatSepMatch "1. 5000/300".data = false ∧ vatNoneMatch "1. 5000/300".data = false ∧
    vatCheckMatch "1. 5000/300".data = false ∧
    (handleSec1 false "1. 5000/300".data ({} : PData)).bugase = some "확인필요" ∧
    (handleSec1 true "1. 5000/300".data ({} : PData)).bugase = none := by
  have h := c5_vat_default "1. 5000/300".data ({} : PData) (by decide) (by decide) (by decide)
  exact ⟨by decide, by decide, by decide, h.1, h.2⟩

/-- Claim C6 (amended): when the cleaned section-3 remainder starts with no digit and the no-key-money family matches the remainder before parenthetical removal (or that text is literally 0), key money is set to 0 and the memo is the parenthetical content, else the leftover cleaned text, else the literal no-key-money string. The original claim matched the family on the text after parenthetical removal, see the counterexample. -/
theorem c6_no_key_money (line : Str) (d : PData)
    (hnum : (rightsCleanOf line).takeWhile (fun c => isDigitC c) = [])
    (hfam : noGwonMatch (rightsTextOf line) = true ∨ rightsTextOf line = "0".data) :
    (handleSec3 line d).gwonrigeum = some 0 ∧
    (handleSec3 line d).gwonrigeumMemo = some (
      if ((parenContentLazy (rightsTextOf line)).map stripL).getD [] ≠ [] then
        mkS (((parenContentLazy (rightsTextOf line)).map stripL).getD [])
      else if stripL (dropCommaSpace (stripL (removeAtomsAll noGwonPats
          (rightsTextOf line).length (rightsTextOf line)))) ≠ [] then
        mkS (stripL (dropCommaSpace (stripL (removeAtomsAll noGwonPats
          (rightsTextOf line).length (rightsTextOf line)))))
      else "무권리") := by
  unfold handleSec3
  dsimp only
  rw [hnum]
  rw [if_pos hfam]
  constructor
  · dsimp only
    split_ifs <;> rfl
  · dsimp only
    split_ifs <;> rfl

/-- Claim C6 counterexample: a line whose paren-stripped remainder matches the no-key-money family while the pre-paren text does not, leaves key money absent, contradicting the original claim. -/
theorem c6_counterexample :
    (rightsCleanOf "3. 권(a)없".data).takeWhile (fun c => isDigitC c) = [] ∧
    noGwonMatch (rightsCleanOf "3. 권(a)없".data) = true ∧
    (parse "3. 권(a)없" true).gwonrigeum = none ∧
    (parse "3. 권(a)없" true).gwonrigeumMemo = some "권(a)없" := by
  exact ⟨by decide, by decide, by rfl, by rfl⟩

/-- Claim C6 witness: the spec example line yields key money 0 with the literal no-key-money memo. -/
theorem c6_no_key_money_witness :
    (parse "3. 무권리" true).gwonrigeum = some 0 ∧
    (parse "3. 무권리" true).gwonrigeumMemo = some "무권리" ∧
    (handleSec3 "3. 무권리".data ({} : PData)).gwonrigeum = some 0 ∧
    (handleSec3 "3. 무권리".data ({} : PData)).gwonrigeumMemo = some "무권리" := by
  have h := c6_no_key_money "3. 무권리".data ({} : PData) (by decide) (Or.inl (by decide))
  refine ⟨by rfl, by rfl, h.1, ?_⟩
  rw [h.2]
  rfl

theorem storeContacts_ge3 (es : List Str) (d : PData) (i : ℕ) (h : 3 ≤ i) :
    (storeContacts d es i).1 = d := by
  induction es generalizing d i with
  | nil => rfl
  | cons c t ih =>
    unfold storeContacts at *
    dsimp only [List.foldl]
    have hstep : storeContact d c i = d := by
      unfold storeContact
      rw [if_pos (by omega : i > 2)]
    rw [hstep]
    exact ih d (i + 1) (by omega)

theorem storeContacts_take (es : List Str) (d : PData) (i : ℕ) :
    (storeContacts d es i).1 = (storeContacts d (es.take (3 - i)) i).1 := by
  induction es generalizing d i with
  | nil => simp
  | cons c t ih =>
    by_cases h : 3 ≤ i
    · rw [storeContacts_ge3 _ _ _ h]
      have h0 : 3 - i = 0 := by omega
      rw [h0]
      rfl
    · have h1 : 3 - i = (3 - (i + 1)) + 1 := by omega
      rw [h1]
      unfold storeContacts
      dsimp only [List.take, List.foldl]
      exact ih (storeContact d c i) (i + 1)

/-- Claim C10: every slash-separated section-8 entry consumes one contact index in order, entries past the third are ignored entirely, and an entry with no phone-shaped substring never fills a phone slot. -/
theorem c10_contact_slots (d : PData) (es : List Str) (e : Str) (i : ℕ)
    (hph : phoneSearch e = none) :
    (storeContacts d es 0).1 = (storeContacts d (es.take 3) 0).1 ∧
    (storeContact d e i).phone0 = d.phone0 ∧ (storeContact d e i).phone1 = d.phone1 ∧
    (storeContact d e i).phone2 = d.phone2 := by
  refine ⟨storeContacts_take es d 0, ?_⟩
  unfold storeContact
  rw [hph]
  repeat' (first | split | dsimp only)
  all_goals simp_all

/-- Claim C4: the Korean-numeral converter agrees with the spec-shaped additive description (digits times 10000 / 1000 / 100 per unit, leftover bare digits when a unit matched, first bare integer otherwise, absent when none) on every input. -/
theorem c4_korean_number (s : Str) : parseKoreanNumber s = koreanAmountSpec s := by
  unfold parseKoreanNumber koreanAmountSpec
  by_cases h : stripL s = []
  · simp [h, koreanUnitTable, unitDigits, firstBareInt, removeMoneyChars, firstDigitRun]
  · simp only [h, if_false, koreanUnitTable, List.map_cons, List.map_nil, List.any_cons,
      List.any_nil, Bool.or_false]
    cases h1 : unitDigits '억' (stripL s) <;> cases h2 : unitDigits '천' (stripL s) <;>
      cases h3 : unitDigits '백' (stripL s) <;>
      simp [h1, h2, h3, leftoverDigits, firstBareInt, Option.map] <;>
      (try cases h4 : firstDigitRun (removeMoneyChars (stripL s)) <;> simp [h4]) <;> ring

/-- Claim C8: for a field whose old and new values are both numeric, a label-old-arrow-new fragment is emitted exactly when the numeric values differ, and an old float equal to its integer truncation is displayed as that integer. -/
theorem c8_numeric_diff (old new : PyDict) (k l : String) (ov nv : PyVal) (x y : ℚ)
    (hn : dlookup new k = some nv) (ho : dlookup old k = some ov)
    (hx : numVal ov = some x) (hy : numVal nv = some y) :
    fieldFragment old new k l =
      (if x = y then Option.none else some (l ++ dispNum ov ++ "→" ++ pyStr nv))
    ∧ (∀ q : ℚ, ov = PyVal.float q → q.den = 1 → dispNum ov = toString q.num) := by
  constructor
  · unfold fieldFragment
    rw [hn, ho]
    simp only [Option.getD_some, hx, hy]
    by_cases hxy : x = y
    · simp [hxy]
    · simp [hxy]
  · intro q hq hden
    subst hq
    simp [dispNum, hden]

/-- Claim C8 witness: old float 2000.0 against new int 2500 yields the fragment with the old value displayed as 2000. -/
theorem c8_numeric_diff_witness :
    fieldFragment [("보증금", PyVal.float 2000)] [("보증금", PyVal.int 2500)] "보증금" "보증금"
      = some "보증금2000→2500" := by
  have h := c8_numeric_diff [("보증금", PyVal.float 2000)] [("보증금", PyVal.int 2500)]
    "보증금" "보증금" (PyVal.float 2000) (PyVal.int 2500) 2000 2500 rfl rfl rfl rfl
  rw [h.1]
  rfl

/-- Claim C7 (amended): whenever the new data carries the notes field and its rendered value differs from the old one, the notes fragment is exactly the constant notes-updated marker, irrespective of the notes text. The original claim also promised a notes-appended marker in append mode, which the code never emits, see the counterexample. -/
theorem c7_notes_marker (old new : PyDict) (v : PyVal)
    (hn : dlookup new "특이사항" = some v)
    (hd : pyStr ((dlookup old "특이사항").getD (PyVal.str "")) ≠ pyStr v) :
    notesFragment old new = some "특이사항수정" := by
  unfold notesFragment
  rw [hn]
  simp [hd]

/-- Claim C7 counterexample: with the append-mode flag set and the notes changed, the full summary is still the notes-updated marker, not a notes-appended one. -/
theorem c7_counterexample :
    dlookup [("특이사항", PyVal.str "b"), ("특이사항_추가", PyVal.bool true)] "특이사항_추가"
      = some (PyVal.bool true)
    ∧ buildUpdateSummary [("특이사항", PyVal.str "a")]
        [("특이사항", PyVal.str "b"), ("특이사항_추가", PyVal.bool true)] = "특이사항수정" :=
  ⟨rfl, rfl⟩

/-- Claim C7 witness: adding a notes value emits exactly the notes-updated marker. -/
theorem c7_notes_marker_witness :
    notesFragment [] [("특이사항", PyVal.str "x")] = some "특이사항수정" := by
  exact c7_notes_marker [] [("특이사항", PyVal.str "x")] (PyVal.str "x") rfl (by decide)

/-- Claim C10 witness: with three phoneless entries ahead of it, a fourth entry holding a phone number is dropped and no phone slot is filled. -/
theorem c10_contact_slots_witness :
    phoneSearch "김".data = none ∧
    (storeContacts ({} : PData) ["김".data, "이".data, "박".data, "01012345678".data] 0).1
      = (storeContacts ({} : PData) ["김".data, "이".data, "박".data] 0).1 ∧
    (storeContact ({} : PData) "김".data 0).phone0 = none ∧
    ((storeContacts ({} : PData) ["김".data, "이".data, "박".data, "01012345678".data] 0).1).phone0
      = none := by
  have h := c10_contact_slots ({} : PData) ["김".data, "이".data, "박".data, "01012345678".data]
    "김".data 0 (by rfl)
  exact ⟨by rfl, h.1, h.2.1, by rfl⟩
end TNBot
